import Mathlib

/-!
# Verification development for the `atc` build pipeline

Shallow embedding of

* `scheduler/buildstarter/maxinflight/maxinflightupdater.go` (the serial-group throttle),
* `api/workerserver/register.go` (the worker registration endpoint),
* `db/build.go` (builds and versioned resources),

and models of the worker pool and of the resource runner, of which only the test suites
`worker/pool_test.go` and `resource/resource_in_test.go` are available, followed by the theorems that settle the specification's claims about them.

Conventions of the embedding:

* a Go `error` is an `Option GoError` (`none` is `nil`);
* a Go multi-value return is a tuple, the `error` component last but one, the successor
  state of the store last;
* a collaborator reached through an interface is a record of functions over an explicit
  store state; every call that the embedded function issues is appended to a call log, so
  that "is called" and "is not called" are statements about that log.
-/

namespace Atc

/-- A non-nil Go `error`, identified by its message. -/
abbrev GoError := String

/-! ## `db/build.go` -/

namespace db

/-- The struct `db.Build`. `Status` is the string type `db.Status`; the two `time.Time`
    fields are kept as integer timestamps (no code embedded here reads them). -/
structure Build where
  ID : Int
  Name : String
  Status : String
  JobName : String
  Guid : String
  Endpoint : String
  StartTime : Int
  EndTime : Int
deriving DecidableEq, Repr

end db

/-! ## `scheduler/buildstarter/maxinflight/maxinflightupdater.go` -/

namespace maxinflight

/-- The part of `atc.JobConfig` that `UpdateMaxInFlightReached` reads. The struct and its
    methods `MaxInFlight()` and `GetSerialGroups()` are declared outside the embedded
    sources, so the values those two methods return are carried as fields. -/
structure JobConfig where
  Name : String
  MaxInFlight : Int
  GetSerialGroups : List String
deriving DecidableEq, Repr

/-- The interface `MaxInFlightUpdaterDB`, over a store state `σ`. Each method returns its Go
    results followed by the successor state of the store. -/
structure MaxInFlightUpdaterDB (σ : Type) where
  GetRunningBuildsBySerialGroup :
    σ → String → List String → List db.Build × Option GoError × σ
  GetNextPendingBuildBySerialGroup :
    σ → String → List String → db.Build × Bool × Option GoError × σ
  SetMaxInFlightReached :
    σ → String → Bool → Option GoError × σ

/-- One call on a `MaxInFlightUpdaterDB`, with its arguments. -/
inductive DBCall where
  | getRunningBuildsBySerialGroup (jobName : String) (serialGroups : List String)
  | getNextPendingBuildBySerialGroup (jobName : String) (serialGroups : List String)
  | setMaxInFlightReached (jobName : String) (reached : Bool)
deriving DecidableEq, Repr

/-- One line written to the `lager.Logger` session `is-max-in-flight-reached`. -/
inductive LogLine where
  | error (action : String) (err : GoError)
  | info (action : String)
deriving DecidableEq, Repr

/-- Everything observable of one run of `UpdateMaxInFlightReached`: the two Go results, the
    store afterwards, the calls issued on the store (in order) and the log lines. -/
structure Outcome (σ : Type) where
  reached : Bool
  err : Option GoError
  store : σ
  calls : List DBCall
  logs : List LogLine

/-- The method `(*maxInFlightUpdater).UpdateMaxInFlightReached`, lines 31-61. -/
def UpdateMaxInFlightReached {σ : Type} (s : MaxInFlightUpdaterDB σ) (st : σ)
    (jobConfig : JobConfig) (buildID : Int) : Outcome σ :=
  let maxInFlight := jobConfig.MaxInFlight
  if maxInFlight = 0 then
    { reached := false, err := none, store := st, calls := [], logs := [] }
  else
    match s.GetRunningBuildsBySerialGroup st jobConfig.Name jobConfig.GetSerialGroups with
    | (builds, err, st1) =>
      let calls1 :=
        [DBCall.getRunningBuildsBySerialGroup jobConfig.Name jobConfig.GetSerialGroups]
      match err with
      | some e =>
        { reached := false, err := some e, store := st1, calls := calls1,
          logs := [LogLine.error "failed-to-get-running-builds-by-serial-group" e] }
      | none =>
        if (builds.length : Int) ≥ maxInFlight then
          { reached := true, err := none, store := st1, calls := calls1, logs := [] }
        else
          match s.GetNextPendingBuildBySerialGroup st1 jobConfig.Name
              jobConfig.GetSerialGroups with
          | (nextMostPendingBuild, found, err2, st2) =>
            let calls2 := calls1 ++
              [DBCall.getNextPendingBuildBySerialGroup jobConfig.Name
                jobConfig.GetSerialGroups]
            match err2 with
            | some e =>
              { reached := false, err := some e, store := st2, calls := calls2,
                logs := [LogLine.error "failed-to-get-next-pending-build-by-serial-group" e] }
            | none =>
              if !found then
                { reached := true, err := none, store := st2, calls := calls2,
                  logs := [LogLine.info "pending-build-disappeared-from-serial-group"] }
              else
                { reached := nextMostPendingBuild.ID != buildID, err := none, store := st2,
                  calls := calls2, logs := [] }

/-! ### A concrete store, used to evaluate the throttle on examples -/

/-- An in-memory store: the running builds and the pending builds (oldest first) of the
    serial groups, the errors the two queries are to fail with, and the `reached` flags
    written so far through `SetMaxInFlightReached`. -/
structure MemStore where
  running : List db.Build
  pending : List db.Build
  runningErr : Option GoError
  pendingErr : Option GoError
  reachedFlags : List (String × Bool)
deriving DecidableEq, Repr

/-- The zero value of `db.Build`. -/
def zeroBuild : db.Build :=
  { ID := 0, Name := "", Status := "", JobName := "", Guid := "", Endpoint := "",
    StartTime := 0, EndTime := 0 }

/-- A build with the given id, job and status, all other fields zero. -/
def mkBuild (id : Int) (job : String) (status : String) : db.Build :=
  { zeroBuild with ID := id, JobName := job, Status := status }

/-- The `MaxInFlightUpdaterDB` backed by a `MemStore`. -/
def memDB : MaxInFlightUpdaterDB MemStore where
  GetRunningBuildsBySerialGroup := fun st _ _ =>
    match st.runningErr with
    | some e => ([], some e, st)
    | none => (st.running, none, st)
  GetNextPendingBuildBySerialGroup := fun st _ _ =>
    match st.pendingErr with
    | some e => (zeroBuild, false, some e, st)
    | none =>
      match st.pending with
      | [] => (zeroBuild, false, none, st)
      | b :: _ => (b, true, none, st)
  SetMaxInFlightReached := fun st jobName reached =>
    (none, { st with reachedFlags := st.reachedFlags ++ [(jobName, reached)] })

/-- Scenario store: one build running, builds 7 and 9 pending in that order. -/
def headOfLineStore : MemStore :=
  { running := [mkBuild 3 "some-job" "started"],
    pending := [mkBuild 7 "some-job" "pending", mkBuild 9 "some-job" "pending"],
    runningErr := none, pendingErr := none, reachedFlags := [] }

/-- Scenario job: `MaxInFlight = 2`, serial group `some-job`. -/
def headOfLineJob : JobConfig :=
  { Name := "some-job", MaxInFlight := 2, GetSerialGroups := ["some-job"] }

/-- A store with two builds running and build 7 pending. -/
def saturatedStore : MemStore :=
  { running := [mkBuild 3 "some-job" "started", mkBuild 4 "some-job" "started"],
    pending := [mkBuild 7 "some-job" "pending"],
    runningErr := none, pendingErr := none, reachedFlags := [] }

/-- A job without limit. -/
def unlimitedJob : JobConfig :=
  { Name := "some-job", MaxInFlight := 0, GetSerialGroups := [] }

/-- A store with one build running and nothing pending. -/
def drainedStore : MemStore :=
  { running := [mkBuild 3 "some-job" "started"], pending := [],
    runningErr := none, pendingErr := none, reachedFlags := [] }

/-- A store whose running-builds query fails. -/
def brokenRunningStore : MemStore :=
  { running := [], pending := [mkBuild 7 "some-job" "pending"],
    runningErr := some "disaster", pendingErr := none, reachedFlags := [] }

/-- A store whose next-pending query fails, with one build running. -/
def brokenPendingStore : MemStore :=
  { running := [mkBuild 3 "some-job" "started"], pending := [mkBuild 7 "some-job" "pending"],
    runningErr := none, pendingErr := some "disaster", reachedFlags := [] }

end maxinflight

/-! ## `api/workerserver/register.go` -/

namespace workerserver

/-- The struct `atc.Worker`, field by field as `RegisterWorker` reads it. The element type of
    `ResourceTypes` is declared outside the embedded sources; the handler only copies the
    slice, so its elements are kept as uninterpreted strings. `StartTime` is an `int64`. -/
structure Worker where
  GardenAddr : String
  BaggageclaimURL : String
  HTTPProxyURL : String
  HTTPSProxyURL : String
  NoProxy : String
  ActiveContainers : Int
  ResourceTypes : List String
  Platform : String
  Tags : List String
  Team : String
  Name : String
  StartTime : Int
deriving DecidableEq, Repr

/-- The struct literal `db.WorkerInfo` built at lines 85-98. -/
structure WorkerInfo where
  GardenAddr : String
  BaggageclaimURL : String
  HTTPProxyURL : String
  HTTPSProxyURL : String
  NoProxy : String
  ActiveContainers : Int
  ResourceTypes : List String
  Platform : String
  Tags : List String
  TeamID : Int
  Name : String
  StartTime : Int
deriving DecidableEq, Repr

/-- The struct literal `metric.WorkerContainers` built at lines 80-83. -/
structure WorkerContainers where
  WorkerName : String
  Containers : Int
deriving DecidableEq, Repr

/-- The value stored in the request context under a key: a `bool`, or a value of some other
    dynamic type (on which the type assertion `.(bool)` panics). -/
inductive CtxValue where
  | bool (b : Bool)
  | other
deriving DecidableEq, Repr

/-- The parts of `*http.Request` the handler reads: the context entry `"system"` (absent is
    `none`), the body, and the URL query as `url.Values` (key to list of values). -/
structure Request where
  system : Option CtxValue
  Body : String
  Query : List (String × List String)
deriving DecidableEq, Repr

/-- The method `url.Values.Get`: the first value stored under the key, `""` when there is
    none. -/
def Values.Get (v : List (String × List String)) (key : String) : String :=
  match v.lookup key with
  | some (x :: _) => x
  | _ => ""

/-- The collaborators of the handler. `jsonDecode` is `json.NewDecoder(r.Body).Decode` applied
    to the zero `atc.Worker`; `GetTeam` is `s.teamDBFactory.GetTeamDB(name).GetTeam()` and
    returns the `ID` of the team, `found` and the error; `ParseDuration` is
    `time.ParseDuration` (a `time.Duration` is an integer count of nanoseconds); `SaveWorker`
    is `s.db.SaveWorker`, whose first result the handler discards. -/
structure Server where
  jsonDecode : String → Worker × Option GoError
  GetTeam : String → Int × Bool × Option GoError
  ParseDuration : String → Int × Option GoError
  SaveWorker : WorkerInfo → Int → Option GoError

/-- What the handler does besides writing the response, one entry per action, in order. -/
inductive Event where
  | decodeBody (body : String)
  | getTeam (teamName : String)
  | parseDuration (ttlStr : String)
  | logError (action : String) (err : GoError)
  | emit (sample : WorkerContainers)
  | saveWorker (info : WorkerInfo) (ttl : Int)
deriving DecidableEq, Repr

/-- The state of the `http.ResponseWriter`: the status code once the header has been written,
    and the body written so far. -/
structure ResponseWriter where
  Code : Option Nat
  Body : String
deriving DecidableEq, Repr

/-- A fresh response writer: nothing written. -/
def ResponseWriter.new : ResponseWriter := { Code := none, Body := "" }

/-- The method `WriteHeader`: the first call fixes the status code, later calls change
    nothing. -/
def ResponseWriter.WriteHeader (w : ResponseWriter) (code : Nat) : ResponseWriter :=
  match w.Code with
  | some _ => w
  | none => { w with Code := some code }

/-- The call `fmt.Fprintf(w, text)` with a format string free of verbs: writes the header
    with status 200 when none was written, then appends the text. -/
def ResponseWriter.Fprintf (w : ResponseWriter) (text : String) : ResponseWriter :=
  let w1 := match w.Code with
    | some _ => w
    | none => { w with Code := some 200 }
  { w1 with Body := w1.Body ++ text }

/-- The constant `http.StatusOK`. -/
def StatusOK : Nat := 200
/-- The constant `http.StatusBadRequest`. -/
def StatusBadRequest : Nat := 400
/-- The constant `http.StatusForbidden`. -/
def StatusForbidden : Nat := 403
/-- The constant `http.StatusInternalServerError`. -/
def StatusInternalServerError : Nat := 500

/-- The result of one run of the handler: the response as written and the actions taken. -/
structure Handled where
  w : ResponseWriter
  trace : List Event
deriving DecidableEq, Repr

/-- Lines 64-106 of `RegisterWorker`: the `ttl` parameter, the name fallback, the telemetry
    sample and the save. `trace` holds the actions taken before line 64. -/
def registerValidated (s : Server) (r : Request) (registration : Worker) (teamID : Int)
    (trace : List Event) : Handled :=
  let w := ResponseWriter.new
  let ttlStr := Values.Get r.Query "ttl"
  let parsed : Int × Option GoError × List Event :=
    if ttlStr.length > 0 then
      ((s.ParseDuration ttlStr).1, (s.ParseDuration ttlStr).2,
        trace ++ [Event.parseDuration ttlStr])
    else (0, none, trace)
  match parsed with
  | (_, some _, trace1) =>
    { w := (w.WriteHeader StatusBadRequest).Fprintf "malformed ttl", trace := trace1 }
  | (ttl, none, trace1) =>
    let registration :=
      if registration.Name = "" then { registration with Name := registration.GardenAddr }
      else registration
    let sample : WorkerContainers :=
      { WorkerName := registration.Name, Containers := registration.ActiveContainers }
    let info : WorkerInfo :=
      { GardenAddr := registration.GardenAddr,
        BaggageclaimURL := registration.BaggageclaimURL,
        HTTPProxyURL := registration.HTTPProxyURL,
        HTTPSProxyURL := registration.HTTPSProxyURL,
        NoProxy := registration.NoProxy,
        ActiveContainers := registration.ActiveContainers,
        ResourceTypes := registration.ResourceTypes,
        Platform := registration.Platform,
        Tags := registration.Tags,
        TeamID := teamID,
        Name := registration.Name,
        StartTime := registration.StartTime }
    let trace2 := trace1 ++ [Event.emit sample, Event.saveWorker info ttl]
    match s.SaveWorker info ttl with
    | some e =>
      { w := w.WriteHeader StatusInternalServerError,
        trace := trace2 ++ [Event.logError "failed-to-save-worker" e] }
    | none => { w := w.WriteHeader StatusOK, trace := trace2 }

/-- Lines 58-62 of `RegisterWorker`, then the rest: the garden address check. -/
def registerWithTeam (s : Server) (r : Request) (registration : Worker) (teamID : Int)
    (trace : List Event) : Handled :=
  if registration.GardenAddr.length = 0 then
    { w := (ResponseWriter.new.WriteHeader StatusBadRequest).Fprintf "missing address",
      trace := trace }
  else registerValidated s r registration teamID trace

/-- The method `(*Server).RegisterWorker`, lines 24-106, run against a fresh response writer.
    The result is `none` when the handler panics (the type assertion `system.(bool)` on a
    context value that is not a `bool`). -/
def RegisterWorker (s : Server) (r : Request) : Option Handled :=
  let w := ResponseWriter.new
  match r.system with
  | none => some { w := w.WriteHeader StatusForbidden, trace := [] }
  | some CtxValue.other => none
  | some (CtxValue.bool false) => some { w := w.WriteHeader StatusForbidden, trace := [] }
  | some (CtxValue.bool true) =>
    let trace0 := [Event.decodeBody r.Body]
    match s.jsonDecode r.Body with
    | (_, some _) => some { w := w.WriteHeader StatusBadRequest, trace := trace0 }
    | (registration, none) =>
      if registration.Team ≠ "" then
        let trace1 := trace0 ++ [Event.getTeam registration.Team]
        match s.GetTeam registration.Team with
        | (_, _, some e) =>
          some { w := w.WriteHeader StatusInternalServerError,
                 trace := trace1 ++ [Event.logError "failed-to-get-team" e] }
        | (teamID, found, none) =>
          if !found then
            some { w := w.WriteHeader StatusBadRequest,
                   trace := trace1 ++ [Event.logError "team-not-found" "team-not-found"] }
          else some (registerWithTeam s r registration teamID trace1)
      else some (registerWithTeam s r registration 0 trace0)

/-- Whether an action is a call of `SaveWorker`. -/
def Event.isSaveWorker : Event → Bool
  | Event.saveWorker _ _ => true
  | _ => false

/-- Whether an action is the emission of a telemetry sample. -/
def Event.isEmit : Event → Bool
  | Event.emit _ => true
  | _ => false

/-! ### Concrete collaborators, used to evaluate the handler on examples -/

/-- The zero value of `atc.Worker`. -/
def zeroWorker : Worker :=
  { GardenAddr := "", BaggageclaimURL := "", HTTPProxyURL := "", HTTPSProxyURL := "",
    NoProxy := "", ActiveContainers := 0, ResourceTypes := [], Platform := "", Tags := [],
    Team := "", Name := "", StartTime := 0 }

/-- A server for examples. The body `"main"` decodes to a worker of team `main` with an
    address, `"ghost"` to one of team `ghost`, `"down"` to one of team `down` without an
    address, `"noaddr"` to a team-less worker without an address; any other body fails to
    decode. Team `main` exists with id 1, team `ghost` does not exist, the lookup of any
    other team fails. Only `"30s"` parses as a duration. Every save succeeds. -/
def exampleServer : Server where
  jsonDecode := fun body =>
    if body = "main" then
      ({ zeroWorker with GardenAddr := "10.0.0.1:7777", Team := "main" }, none)
    else if body = "ghost" then
      ({ zeroWorker with GardenAddr := "10.0.0.1:7777", Team := "ghost" }, none)
    else if body = "down" then ({ zeroWorker with Team := "down" }, none)
    else if body = "noaddr" then (zeroWorker, none)
    else (zeroWorker, some "unexpected end of JSON input")
  GetTeam := fun name =>
    if name = "main" then (1, true, none)
    else if name = "ghost" then (0, false, none)
    else (0, false, some "connection refused")
  ParseDuration := fun t =>
    if t = "30s" then (30000000000, none) else (0, some "time: invalid duration")
  SaveWorker := fun _ _ => none

/-- A system-privileged request with the given body and no query. -/
def systemRequest (body : String) : Request :=
  { system := some (CtxValue.bool true), Body := body, Query := [] }

/-- A system-privileged request with the given body and the given `ttl` query parameter. -/
def ttlRequest (body : String) (ttl : String) : Request :=
  { system := some (CtxValue.bool true), Body := body, Query := [("ttl", [ttl])] }

/-- The server of the examples, except that every save fails. -/
def failingSaveServer : Server :=
  { exampleServer with SaveWorker := fun _ _ => some "disaster" }

/-- Lines 76-78 of `RegisterWorker` on their own: the name fallback. -/
def withDefaultName (registration : Worker) : Worker :=
  if registration.Name = "" then { registration with Name := registration.GardenAddr }
  else registration

/-- Lines 80-83 of `RegisterWorker` on their own: the telemetry sample. -/
def sampleOf (registration : Worker) : WorkerContainers :=
  { WorkerName := registration.Name, Containers := registration.ActiveContainers }

/-- Lines 85-98 of `RegisterWorker` on their own: the `db.WorkerInfo` literal. -/
def workerInfoOf (registration : Worker) (teamID : Int) : WorkerInfo :=
  { GardenAddr := registration.GardenAddr,
    BaggageclaimURL := registration.BaggageclaimURL,
    HTTPProxyURL := registration.HTTPProxyURL,
    HTTPSProxyURL := registration.HTTPSProxyURL,
    NoProxy := registration.NoProxy,
    ActiveContainers := registration.ActiveContainers,
    ResourceTypes := registration.ResourceTypes,
    Platform := registration.Platform,
    Tags := registration.Tags,
    TeamID := teamID,
    Name := registration.Name,
    StartTime := registration.StartTime }

/-- Lines 76-106 of `RegisterWorker` on their own, as a function of the `ttl` already
    determined and of the actions taken so far. -/
def saveRegistration (s : Server) (registration : Worker) (teamID : Int) (ttl : Int)
    (trace1 : List Event) : Handled :=
  let registration := withDefaultName registration
  let trace2 := trace1 ++ [Event.emit (sampleOf registration),
    Event.saveWorker (workerInfoOf registration teamID) ttl]
  match s.SaveWorker (workerInfoOf registration teamID) ttl with
  | some e =>
    { w := ResponseWriter.new.WriteHeader StatusInternalServerError,
      trace := trace2 ++ [Event.logError "failed-to-save-worker" e] }
  | none => { w := ResponseWriter.new.WriteHeader StatusOK, trace := trace2 }

/-- The actions `RegisterWorker` takes up to the garden address check, for a registration
    that passes the team check: the decoding of the body, then the team lookup when a team
    is named. -/
def checkedTrace (r : Request) (registration : Worker) : List Event :=
  if registration.Team = "" then [Event.decodeBody r.Body]
  else [Event.decodeBody r.Body, Event.getTeam registration.Team]

/-- The registration that the body `"main"` decodes to on the server of the examples. -/
def mainRegistration : Worker :=
  { zeroWorker with GardenAddr := "10.0.0.1:7777", Team := "main" }

/-- The outcome of registering `mainRegistration` with the given `ttl` on a server whose team
    lookup gives team id 1, after the given actions. -/
def mainOutcome (s : Server) (ttl : Int) (trace1 : List Event) : Handled :=
  saveRegistration s mainRegistration 1 ttl trace1

end workerserver

/-! ## The worker pool (`worker/pool_test.go`)

The pool itself is not among the embedded sources; its test suite is. The definitions of this
section follow section 4.2 of the specification, and the test suite where it pins a detail. -/

namespace worker

/-- Modelled from the spec: the worker-selection predicate of a container spec (platform,
    tags, team), the value of `spec.WorkerSpec()`; its declaration is missing. -/
structure WorkerSpec where
  Platform : String
  Tags : List String
  Team : String
deriving DecidableEq, Repr

/-- Modelled from the spec: the logical identifier of a container, with the two fields the
    test suite sets; its declaration is missing. -/
structure Identifier where
  Name : String
  WorkerName : String
deriving DecidableEq, Repr

/-- Modelled from the spec: a container spec, reduced to the resource type that the test suite
    sets (its field `Type`) and to its worker-selection predicate; its declaration is missing. -/
structure ContainerSpec where
  ResourceType : String
  WorkerSpec : WorkerSpec
deriving DecidableEq, Repr

/-- Modelled from the spec: a container, identified by its handle; the `Container` interface is
    missing. -/
structure Container where
  Handle : String
deriving DecidableEq, Repr

/-- Modelled from the spec: the persisted record of a container, with the owning worker name
    and the handle, as the test suite builds `db.ContainerInfo`; its declaration is missing. -/
structure ContainerInfo where
  WorkerName : String
  Handle : String
deriving DecidableEq, Repr

/-- Modelled from the spec: the `Worker` interface as the pool uses it, which is missing.
    `Satisfying` is the capability check, returning the worker itself (`none`) or an error;
    `CreateContainer` returns a container and an error; `LookupContainer` returns the
    container or absent, and an error. -/
structure Worker where
  Satisfying : WorkerSpec → Option GoError
  CreateContainer : Identifier → ContainerSpec → Option Container × Option GoError
  LookupContainer : String → Option Container × Option GoError

/-- Modelled from the spec: the `WorkerProvider` interface (the registry of section 4.1 and the
    store lookups of section 4.2), which is missing. A lookup returns the value or absent, and
    an error. -/
structure WorkerProvider where
  Workers : List Worker × Option GoError
  GetWorker : String → Option Worker × Option GoError
  GetContainerInfo : String → Option ContainerInfo × Option GoError
  FindContainerInfoForIdentifier : Identifier → Option ContainerInfo × Option GoError
  ReapContainer : String → Option GoError

/-- Modelled from the spec: the errors the pool returns, which are declared in the missing
    pool source: the sentinels `ErrNoWorkers` and `ErrMissingWorker`, the struct
    `NoCompatibleWorkersError` with the spec and the examined workers, and an error of a
    collaborator passed through unchanged. -/
inductive PoolError where
  | ErrNoWorkers
  | NoCompatibleWorkersError (Spec : WorkerSpec) (Workers : List Worker)
  | ErrMissingWorker
  | passed (e : GoError)

/-- Modelled from the spec: one call the pool issues on the provider or on a worker; a worker
    of the provider's list is named by its position in that list. The pool source that issues
    the calls is missing. -/
inductive PoolCall where
  | workers
  | satisfying (worker : Nat) (spec : WorkerSpec)
  | createContainer (worker : Nat) (id : Identifier) (spec : ContainerSpec)
  | getContainerInfo (handle : String)
  | findContainerInfoForIdentifier (id : Identifier)
  | getWorker (name : String)
  | lookupContainer (handle : String)
  | reapContainer (handle : String)
deriving DecidableEq, Repr

/-- Modelled from the spec: the outcome of `CreateContainer`, the two Go results and the calls
    issued, in order; the pool source is missing. -/
structure Created where
  container : Option Container
  err : Option PoolError
  calls : List PoolCall

/-- Modelled from the spec: the outcome of a lookup, the three Go results and the calls
    issued, in order; the pool source is missing. -/
structure Looked where
  container : Option Container
  found : Bool
  err : Option PoolError
  calls : List PoolCall

/-- Modelled from the spec: steps 2 and 3 of the selection algorithm of section 4.2, the
    satisfying workers with their positions, `i` being the position of the head of the list;
    the pool source is missing. -/
def compatibleFrom (spec : WorkerSpec) : Nat → List Worker → List (Nat × Worker)
  | _, [] => []
  | i, w :: ws =>
    match w.Satisfying spec with
    | none => (i, w) :: compatibleFrom spec (i + 1) ws
    | some _ => compatibleFrom spec (i + 1) ws

/-- Modelled from the spec: step 2 of the selection algorithm of section 4.2, the `Satisfying`
    calls made, one per worker in list order; the pool source is missing. -/
def satisfyingCalls (spec : WorkerSpec) : Nat → List Worker → List PoolCall
  | _, [] => []
  | i, _ :: ws => PoolCall.satisfying i spec :: satisfyingCalls spec (i + 1) ws

/-- Modelled from the spec: `Pool.CreateContainer`, the selection algorithm of section 4.2,
    whose source is missing. `rand` is the draw of the per-call random number generator; the
    worker chosen among `n` satisfying workers is the one at position `rand % n`. -/
def CreateContainer (provider : WorkerProvider) (rand : Nat) (id : Identifier)
    (spec : ContainerSpec) : Created :=
  match provider.Workers with
  | (_, some e) =>
    { container := none, err := some (PoolError.passed e), calls := [PoolCall.workers] }
  | (workers, none) =>
    let probes := PoolCall.workers :: satisfyingCalls spec.WorkerSpec 0 workers
    match compatibleFrom spec.WorkerSpec 0 workers with
    | [] =>
      if workers.length = 0 then
        { container := none, err := some PoolError.ErrNoWorkers, calls := probes }
      else
        { container := none,
          err := some (PoolError.NoCompatibleWorkersError spec.WorkerSpec workers),
          calls := probes }
    | c :: cs =>
      let chosen := (c :: cs).getD (rand % (c :: cs).length) c
      { container := (chosen.2.CreateContainer id spec).1,
        err := (chosen.2.CreateContainer id spec).2.map PoolError.passed,
        calls := probes ++ [PoolCall.createContainer chosen.1 id spec] }

/-- Modelled from the spec: steps 2 and 3 of the lookup algorithm of section 4.2, shared by the
    two lookups, whose source is missing: resolve the owning worker, ask it for `handle`, reap
    `handle` when the worker does not know it. `calls` holds the calls of step 1. For a worker
    that is not in the registry the test suite fixes the three results (no container, not
    found, `ErrMissingWorker`) and nothing more; the calls recorded in that arm are those of
    step 2 as section 4.2 words it, and no theorem below states them. -/
def lookupOnWorker (provider : WorkerProvider) (info : ContainerInfo) (handle : String)
    (calls : List PoolCall) : Looked :=
  let calls1 := calls ++ [PoolCall.getWorker info.WorkerName]
  match provider.GetWorker info.WorkerName with
  | (_, some e) =>
    { container := none, found := false, err := some (PoolError.passed e), calls := calls1 }
  | (none, none) =>
    { container := none, found := false, err := some PoolError.ErrMissingWorker,
      calls := calls1 }
  | (some w, none) =>
    let calls2 := calls1 ++ [PoolCall.lookupContainer handle]
    match w.LookupContainer handle with
    | (_, some e) =>
      { container := none, found := false, err := some (PoolError.passed e), calls := calls2 }
    | (some c, none) => { container := some c, found := true, err := none, calls := calls2 }
    | (none, none) =>
      let calls3 := calls2 ++ [PoolCall.reapContainer handle]
      match provider.ReapContainer handle with
      | some e =>
        { container := none, found := false, err := some (PoolError.passed e),
          calls := calls3 }
      | none => { container := none, found := false, err := none, calls := calls3 }

/-- Modelled from the spec: `Pool.LookupContainer`, the lookup algorithm of section 4.2 by
    handle, whose source is missing. The handle the worker is asked for, and the one reaped,
    is the handle given (test suite, lines 250-251 and 277-278). -/
def LookupContainer (provider : WorkerProvider) (handle : String) : Looked :=
  let calls := [PoolCall.getContainerInfo handle]
  match provider.GetContainerInfo handle with
  | (_, some e) =>
    { container := none, found := false, err := some (PoolError.passed e), calls := calls }
  | (none, none) => { container := none, found := false, err := none, calls := calls }
  | (some info, none) => lookupOnWorker provider info handle calls

/-- Modelled from the spec: `Pool.FindContainerForIdentifier`, the lookup algorithm of section
    4.2 by identifier, whose source is missing. The handle the worker is asked for, and the
    one reaped, is the handle of the record found (test suite, lines 407-408 and 434-435). -/
def FindContainerForIdentifier (provider : WorkerProvider) (id : Identifier) : Looked :=
  let calls := [PoolCall.findContainerInfoForIdentifier id]
  match provider.FindContainerInfoForIdentifier id with
  | (_, some e) =>
    { container := none, found := false, err := some (PoolError.passed e), calls := calls }
  | (none, none) => { container := none, found := false, err := none, calls := calls }
  | (some info, none) => lookupOnWorker provider info info.Handle calls

/-- Whether a call is a `Satisfying` call. -/
def PoolCall.isSatisfying : PoolCall → Bool
  | PoolCall.satisfying _ _ => true
  | _ => false

/-- Whether a call is a `CreateContainer` call on a worker. -/
def PoolCall.isCreateContainer : PoolCall → Bool
  | PoolCall.createContainer _ _ _ => true
  | _ => false

/-- Whether a call is a `ReapContainer` call. -/
def PoolCall.isReapContainer : PoolCall → Bool
  | PoolCall.reapContainer _ => true
  | _ => false

/-! ### The collaborators of the test suite -/

/-- The container the fake workers of the test suite create. -/
def fakeContainer : Container := { Handle := "fake-container" }

/-- Test suite, `workerA` and `workerB`: satisfies every spec and creates `fakeContainer`. -/
def workerA : Worker :=
  { Satisfying := fun _ => none,
    CreateContainer := fun _ _ => (some fakeContainer, none),
    LookupContainer := fun _ => (none, none) }

/-- Test suite, `workerC`: satisfies no spec. -/
def workerC : Worker :=
  { Satisfying := fun _ => some "nope",
    CreateContainer := fun _ _ => (some fakeContainer, none),
    LookupContainer := fun _ => (none, none) }

/-- Test suite, lines 40-43: the identifier and the spec of the `Create` tests. -/
def someIdentifier : Identifier := { Name := "some-name", WorkerName := "" }

/-- Test suite, line 43: the spec of the `Create` tests. -/
def someSpec : ContainerSpec :=
  { ResourceType := "some-type", WorkerSpec := { Platform := "", Tags := [], Team := "" } }

/-- Test suite, lines 192-197: the container record of the lookup tests. -/
def someContainerInfo : ContainerInfo :=
  { WorkerName := "some-worker", Handle := "some-container-handle" }

/-- A provider serving the given workers, in which every container lookup finds
    `someContainerInfo`, the owning worker resolves to `owner`, and reaping gives `reapErr`. -/
def fakeProvider (workers : List Worker) (owner : Option Worker) (reapErr : Option GoError) :
    WorkerProvider :=
  { Workers := (workers, none),
    GetWorker := fun _ => (owner, none),
    GetContainerInfo := fun _ => (some someContainerInfo, none),
    FindContainerInfoForIdentifier := fun _ => (some someContainerInfo, none),
    ReapContainer := fun _ => reapErr }

end worker

/-! ## The resource runner (`resource/resource_in_test.go`)

The runner itself is not among the embedded sources; its test suite is. The definitions of
this section follow section 4.3 of the specification, and the test suite where it pins a
detail. Which of "the script exits" and "a signal arrives" happens first is an input of the
model (`Script`), not a race. -/

namespace resource

/-- Modelled from the spec: a string-to-string map (`atc.Source`, `atc.Params`, `atc.Version`),
    as the list of its entries; the declarations are missing. -/
abbrev StringMap := List (String × String)

/-- Modelled from the spec: one metadata entry `{name, value}` (`atc.MetadataField`), whose
    declaration is missing. -/
structure MetadataField where
  Name : String
  Value : String
deriving DecidableEq, Repr

/-- Modelled from the spec: the request written to the stdin of the script, whose declaration
    is missing. -/
structure Request where
  source : StringMap
  params : StringMap
  version : StringMap
deriving DecidableEq, Repr

/-- Modelled from the spec: the response read from the stdout of the script, a version and an
    ordered list of metadata entries; its declaration is missing. -/
structure Response where
  version : StringMap
  metadata : List MetadataField
deriving DecidableEq, Repr

/-- Modelled from the spec: the result of a successful run, with its `Version()` and
    `Metadata()`; the `VersionedSource` interface is missing. -/
structure VersionedSource where
  Version : StringMap
  Metadata : List MetadataField
deriving DecidableEq, Repr

/-- Modelled from the spec: the JSON encoding of the request and the JSON decoding of the
    response (absent when the text is not a valid response object); both belong to the
    missing runner source and to the JSON library. -/
structure Codec where
  encode : Request → String
  decode : String → Option Response

/-- Modelled from the spec: what the script does once `Run` or `Attach` is called, an input of
    the missing runner: the call fails, or the process exits with a status having written
    stdout and stderr, or a signal arrives on the signal channel before the process exits (the
    container stop then giving `stopErr`). -/
inductive Script where
  | startFails (e : GoError)
  | exits (status : Int) (stdout : String) (stderr : String)
  | interrupted (stopErr : Option GoError)
deriving DecidableEq, Repr

/-- Modelled from the spec: the container runtime for one run, the id of the process that
    `Run` or `Attach` returns and the behaviour of the script; it stands for the missing
    container host. -/
structure Runtime where
  processID : String
  script : Script
deriving DecidableEq, Repr

/-- Modelled from the spec: the property bag of a container (string to string), which survives
    the run; the container interface is missing. -/
abbrev Properties := List (String × String)

/-- Modelled from the spec: `Property(name)`, the value or absent (the container host reports
    an error for a property that is not set); the container interface is missing. -/
def Properties.Property (ps : Properties) (name : String) : Option String :=
  ps.lookup name

/-- Modelled from the spec: `SetProperty(name, value)`; the container interface is missing. -/
def Properties.SetProperty (ps : Properties) (name : String) (value : String) : Properties :=
  (name, value) :: ps.filter (fun kv => kv.1 != name)

/-- Modelled from the spec: the name of the persisted property holding the stdout of a
    completed run; the constant is declared in the missing runner source. -/
def resourceResultPropertyName : String := "concourse:resource-result"

/-- Modelled from the spec: the name of the persisted property holding the process id of a
    running script; the constant is declared in the missing runner source. -/
def resourceProcessPropertyName : String := "concourse:resource-process"

/-- Modelled from the spec: one call the runner issues on the container; the runner source
    that issues them is missing. -/
inductive ContainerCall where
  | property (name : String)
  | attach (processID : String) (stdin : String)
  | run (path : String) (args : List String) (stdin : String)
  | setProperty (name : String) (value : String)
  | stop (kill : Bool)
deriving DecidableEq, Repr

/-- Modelled from the spec: the failure taxonomy of section 4.3, declared in the missing runner
    source: a spawn or attach error passed through, a non-zero exit with the captured stderr
    (its message contains `exit status n`), a malformed response, and the sentinel
    `ErrAborted`. -/
inductive RunError where
  | passed (e : GoError)
  | exitStatus (status : Int) (stderr : String)
  | malformedResponse (text : String)
  | ErrAborted
deriving DecidableEq, Repr

/-- Modelled from the spec: the outcome of one run of the runner, the two Go results, the
    property bag afterwards, the calls issued on the container in order and the bytes
    forwarded to the `Stderr` sink; the runner source is missing. -/
structure Ran where
  versionedSource : Option VersionedSource
  err : Option RunError
  properties : Properties
  calls : List ContainerCall
  stderr : String
deriving DecidableEq, Repr

/-- Modelled from the spec: steps 4 to 7 of the decision procedure of section 4.3, once the
    script is live; the runner source is missing. -/
def awaitScript (codec : Codec) (ps : Properties) (rt : Runtime) (calls : List ContainerCall) :
    Ran :=
  match rt.script with
  | Script.startFails e =>
    { versionedSource := none, err := some (RunError.passed e), properties := ps,
      calls := calls, stderr := "" }
  | Script.interrupted _ =>
    { versionedSource := none, err := some RunError.ErrAborted, properties := ps,
      calls := calls ++ [ContainerCall.stop false], stderr := "" }
  | Script.exits status stdout stderr =>
    if status ≠ 0 then
      { versionedSource := none, err := some (RunError.exitStatus status stderr),
        properties := ps, calls := calls, stderr := stderr }
    else
      match codec.decode stdout with
      | none =>
        { versionedSource := none, err := some (RunError.malformedResponse stdout),
          properties := ps, calls := calls, stderr := stderr }
      | some resp =>
        { versionedSource := some { Version := resp.version, Metadata := resp.metadata },
          err := none,
          properties := ps.SetProperty resourceResultPropertyName stdout,
          calls := calls ++ [ContainerCall.setProperty resourceResultPropertyName stdout],
          stderr := stderr }

/-- Modelled from the spec: `Resource.Get`, the decision procedure of section 4.3 for the
    operation `in`, whose source is missing: the memoized result first, then reattaching to a
    recorded process, then spawning `/opt/resource/in` with the argument `/tmp/build/get`
    (test suite, lines 318-322) and recording the process id before awaiting the exit. -/
def Get (codec : Codec) (ps : Properties) (rt : Runtime) (request : Request) : Ran :=
  let calls0 := [ContainerCall.property resourceResultPropertyName]
  match ps.Property resourceResultPropertyName with
  | some result =>
    match codec.decode result with
    | some resp =>
      { versionedSource := some { Version := resp.version, Metadata := resp.metadata },
        err := none, properties := ps, calls := calls0, stderr := "" }
    | none =>
      { versionedSource := none, err := some (RunError.malformedResponse result),
        properties := ps, calls := calls0, stderr := "" }
  | none =>
    let calls1 := calls0 ++ [ContainerCall.property resourceProcessPropertyName]
    match ps.Property resourceProcessPropertyName with
    | some processID =>
      awaitScript codec ps rt
        (calls1 ++ [ContainerCall.attach processID (codec.encode request)])
    | none =>
      let calls2 := calls1
        ++ [ContainerCall.run "/opt/resource/in" ["/tmp/build/get"] (codec.encode request)]
      match rt.script with
      | Script.startFails e =>
        { versionedSource := none, err := some (RunError.passed e), properties := ps,
          calls := calls2, stderr := "" }
      | _ =>
        awaitScript codec (ps.SetProperty resourceProcessPropertyName rt.processID) rt
          (calls2 ++ [ContainerCall.setProperty resourceProcessPropertyName rt.processID])

/-- Whether a call is `Run`. -/
def ContainerCall.isRun : ContainerCall → Bool
  | ContainerCall.run _ _ _ => true
  | _ => false

/-- Whether a call is `Attach`. -/
def ContainerCall.isAttach : ContainerCall → Bool
  | ContainerCall.attach _ _ => true
  | _ => false

/-! ### The collaborators of the test suite -/

/-- Test suite, lines 155-162: the response text stored as the result property (without its
    insignificant white space). -/
def storedResult : String :=
  "\x7b\"version\":\x7b\"some\":\"new-version\"\x7d,\"metadata\":[\x7b\"name\":\"a\",\"value\":\"a-value\"\x7d,\x7b\"name\":\"b\",\"value\":\"b-value\"\x7d]\x7d"

/-- Test suite, lines 178-184: the response the stored text decodes to. -/
def storedResponse : Response :=
  { version := [("some", "new-version")],
    metadata := [{ Name := "a", Value := "a-value" }, { Name := "b", Value := "b-value" }] }

/-- A codec for examples: `storedResult` decodes to `storedResponse`, no other text decodes;
    every request encodes to the same text. -/
def exampleCodec : Codec :=
  { encode := fun _ => "request",
    decode := fun text => if text = storedResult then some storedResponse else none }

/-- Test suite, lines 49-51: the request of the tests. -/
def exampleRequest : Request :=
  { source := [("some", "source")], params := [("some", "params")],
    version := [("some", "version")] }

/-- A runtime whose script prints `storedResult` and exits with status 0. -/
def completingRuntime : Runtime :=
  { processID := "process-id", script := Script.exits 0 storedResult "" }

/-- A runtime whose script cannot be started. -/
def brokenRuntime : Runtime :=
  { processID := "process-id", script := Script.startFails "oh no!" }

end resource

/-! ## `db/build.go`: versioned resources -/

namespace db

/-- The struct `db.MetadataField`. -/
structure MetadataField where
  Name : String
  Value : String
deriving DecidableEq, Repr

/-- The struct `db.VersionedResource`. The field `Type` is written `Type_`. `Source` and
    `Version` are the map types `turbine.Source` and `turbine.Version` of another package,
    kept as lists of entries (no code embedded here reads them). -/
structure VersionedResource where
  Name : String
  Type_ : String
  Source : List (String × String)
  Version : List (String × String)
  Metadata : List MetadataField
deriving DecidableEq, Repr

/-- The composite literal `VersionedResource{}` of line 43: the zero value. -/
def VersionedResource.zero : VersionedResource :=
  { Name := "", Type_ := "", Source := [], Version := [], Metadata := [] }

/-- The loop of lines 37-41 over the elements still to visit, followed by line 43. The slice
    `vrs` itself is carried along and returned third: the loop assigns neither to it nor to
    an element of it. -/
def VersionedResources.lookupLoop (vrs : List VersionedResource) (name : String) :
    List VersionedResource → VersionedResource × Bool × List VersionedResource
  | [] => (VersionedResource.zero, false, vrs)
  | vr :: rest =>
    if vr.Name = name then (vr, true, vrs)
    else VersionedResources.lookupLoop vrs name rest

/-- The method `VersionedResources.Lookup`, lines 36-44: the two Go results, then the slice as
    it is after the call. -/
def VersionedResources.Lookup (vrs : List VersionedResource) (name : String) :
    VersionedResource × Bool × List VersionedResource :=
  VersionedResources.lookupLoop vrs name vrs

/-- Three versioned resources, two of them named `repo`. -/
def exampleResources : List VersionedResource :=
  [ { VersionedResource.zero with Name := "image", Type_ := "docker" },
    { VersionedResource.zero with Name := "repo", Type_ := "git", Version := [("ref", "abc")] },
    { VersionedResource.zero with Name := "repo", Type_ := "git", Version := [("ref", "def")] } ]

end db

/-! ## Theorems: the serial-group throttle -/

namespace maxinflight

/-- Unfolding of the throttle for a job without limit. -/
theorem update_unlimited {σ : Type} (s : MaxInFlightUpdaterDB σ) (st : σ)
    (jobConfig : JobConfig) (buildID : Int) (hmax : jobConfig.MaxInFlight = 0) :
    UpdateMaxInFlightReached s st jobConfig buildID
      = { reached := false, err := none, store := st, calls := [], logs := [] } := by
  simp [UpdateMaxInFlightReached, hmax]

/-- Unfolding of the throttle when the running-builds query fails. -/
theorem update_running_failed {σ : Type} (s : MaxInFlightUpdaterDB σ) (st st1 : σ)
    (jobConfig : JobConfig) (buildID : Int) (builds : List db.Build) (e : GoError)
    (hmax : jobConfig.MaxInFlight ≠ 0)
    (hrun : s.GetRunningBuildsBySerialGroup st jobConfig.Name jobConfig.GetSerialGroups
      = (builds, some e, st1)) :
    UpdateMaxInFlightReached s st jobConfig buildID
      = { reached := false, err := some e, store := st1,
          calls := [DBCall.getRunningBuildsBySerialGroup jobConfig.Name
            jobConfig.GetSerialGroups],
          logs := [LogLine.error "failed-to-get-running-builds-by-serial-group" e] } := by
  simp [UpdateMaxInFlightReached, hmax, hrun]

/-- Unfolding of the throttle when the limit is reached. -/
theorem update_limit_reached {σ : Type} (s : MaxInFlightUpdaterDB σ) (st st1 : σ)
    (jobConfig : JobConfig) (buildID : Int) (builds : List db.Build)
    (hmax : jobConfig.MaxInFlight ≠ 0)
    (hrun : s.GetRunningBuildsBySerialGroup st jobConfig.Name jobConfig.GetSerialGroups
      = (builds, none, st1))
    (hge : jobConfig.MaxInFlight ≤ (builds.length : Int)) :
    UpdateMaxInFlightReached s st jobConfig buildID
      = { reached := true, err := none, store := st1,
          calls := [DBCall.getRunningBuildsBySerialGroup jobConfig.Name
            jobConfig.GetSerialGroups],
          logs := [] } := by
  simp [UpdateMaxInFlightReached, hmax, hrun, hge]

/-- Unfolding of the throttle when the next-pending query fails. -/
theorem update_pending_failed {σ : Type} (s : MaxInFlightUpdaterDB σ) (st st1 st2 : σ)
    (jobConfig : JobConfig) (buildID : Int) (builds : List db.Build) (p : db.Build)
    (found : Bool) (e : GoError)
    (hrun : s.GetRunningBuildsBySerialGroup st jobConfig.Name jobConfig.GetSerialGroups
      = (builds, none, st1))
    (hlt : (builds.length : Int) < jobConfig.MaxInFlight)
    (hnext : s.GetNextPendingBuildBySerialGroup st1 jobConfig.Name jobConfig.GetSerialGroups
      = (p, found, some e, st2)) :
    UpdateMaxInFlightReached s st jobConfig buildID
      = { reached := false, err := some e, store := st2,
          calls := [DBCall.getRunningBuildsBySerialGroup jobConfig.Name
              jobConfig.GetSerialGroups,
            DBCall.getNextPendingBuildBySerialGroup jobConfig.Name
              jobConfig.GetSerialGroups],
          logs := [LogLine.error "failed-to-get-next-pending-build-by-serial-group" e] } := by
  have hne : jobConfig.MaxInFlight ≠ 0 := by
    have : (0 : Int) ≤ (builds.length : Int) := Int.ofNat_nonneg _
    omega
  have hnge : ¬ jobConfig.MaxInFlight ≤ (builds.length : Int) := not_le.mpr hlt
  simp [UpdateMaxInFlightReached, hne, hrun, hnext, hnge]

/-- Unfolding of the throttle when no pending build is found. -/
theorem update_pending_missing {σ : Type} (s : MaxInFlightUpdaterDB σ) (st st1 st2 : σ)
    (jobConfig : JobConfig) (buildID : Int) (builds : List db.Build) (p : db.Build)
    (hrun : s.GetRunningBuildsBySerialGroup st jobConfig.Name jobConfig.GetSerialGroups
      = (builds, none, st1))
    (hlt : (builds.length : Int) < jobConfig.MaxInFlight)
    (hnext : s.GetNextPendingBuildBySerialGroup st1 jobConfig.Name jobConfig.GetSerialGroups
      = (p, false, none, st2)) :
    UpdateMaxInFlightReached s st jobConfig buildID
      = { reached := true, err := none, store := st2,
          calls := [DBCall.getRunningBuildsBySerialGroup jobConfig.Name
              jobConfig.GetSerialGroups,
            DBCall.getNextPendingBuildBySerialGroup jobConfig.Name
              jobConfig.GetSerialGroups],
          logs := [LogLine.info "pending-build-disappeared-from-serial-group"] } := by
  have hne : jobConfig.MaxInFlight ≠ 0 := by
    have : (0 : Int) ≤ (builds.length : Int) := Int.ofNat_nonneg _
    omega
  have hnge : ¬ jobConfig.MaxInFlight ≤ (builds.length : Int) := not_le.mpr hlt
  simp [UpdateMaxInFlightReached, hne, hrun, hnext, hnge]

/-- Unfolding of the throttle when a pending build is found. -/
theorem update_pending_found {σ : Type} (s : MaxInFlightUpdaterDB σ) (st st1 st2 : σ)
    (jobConfig : JobConfig) (buildID : Int) (builds : List db.Build) (p : db.Build)
    (hrun : s.GetRunningBuildsBySerialGroup st jobConfig.Name jobConfig.GetSerialGroups
      = (builds, none, st1))
    (hlt : (builds.length : Int) < jobConfig.MaxInFlight)
    (hnext : s.GetNextPendingBuildBySerialGroup st1 jobConfig.Name jobConfig.GetSerialGroups
      = (p, true, none, st2)) :
    UpdateMaxInFlightReached s st jobConfig buildID
      = { reached := p.ID != buildID, err := none, store := st2,
          calls := [DBCall.getRunningBuildsBySerialGroup jobConfig.Name
              jobConfig.GetSerialGroups,
            DBCall.getNextPendingBuildBySerialGroup jobConfig.Name
              jobConfig.GetSerialGroups],
          logs := [] } := by
  have hne : jobConfig.MaxInFlight ≠ 0 := by
    have : (0 : Int) ≤ (builds.length : Int) := Int.ofNat_nonneg _
    omega
  have hnge : ¬ jobConfig.MaxInFlight ≤ (builds.length : Int) := not_le.mpr hlt
  simp [UpdateMaxInFlightReached, hne, hrun, hnext, hnge]

/-- C1: when the running-builds query succeeds with fewer than `MaxInFlight` builds and the
    next-pending query succeeds and finds a build `p`, the throttle returns
    `(p.ID != buildID, nil)`: `false` exactly when `buildID` is the head-of-line pending
    build, `true` for every other build id. -/
theorem UpdateMaxInFlightReached_head_of_line {σ : Type} (s : MaxInFlightUpdaterDB σ)
    (st st1 st2 : σ) (jobConfig : JobConfig) (buildID : Int) (builds : List db.Build)
    (p : db.Build)
    (hrun : s.GetRunningBuildsBySerialGroup st jobConfig.Name jobConfig.GetSerialGroups
      = (builds, none, st1))
    (hlt : (builds.length : Int) < jobConfig.MaxInFlight)
    (hnext : s.GetNextPendingBuildBySerialGroup st1 jobConfig.Name jobConfig.GetSerialGroups
      = (p, true, none, st2)) :
    (UpdateMaxInFlightReached s st jobConfig buildID).reached = (p.ID != buildID)
    ∧ (UpdateMaxInFlightReached s st jobConfig buildID).err = none
    ∧ ((UpdateMaxInFlightReached s st jobConfig buildID).reached = false ↔ buildID = p.ID)
    ∧ ((UpdateMaxInFlightReached s st jobConfig buildID).reached = true ↔ buildID ≠ p.ID) := by
  rw [update_pending_found s st st1 st2 jobConfig buildID builds p hrun hlt hnext]
  refine ⟨rfl, rfl, ?_, ?_⟩
  · show (p.ID != buildID) = false ↔ buildID = p.ID
    rw [bne_eq_false_iff_eq]
    exact eq_comm
  · show (p.ID != buildID) = true ↔ buildID ≠ p.ID
    rw [bne_iff_ne]
    exact ne_comm

/-- Witness of C1 on the head-of-line scenario: one build running under `MaxInFlight = 2`,
    builds 7 and 9 pending; asking for build 9 gives `true`. -/
theorem UpdateMaxInFlightReached_head_of_line_witness :
    (UpdateMaxInFlightReached memDB headOfLineStore headOfLineJob 9).reached
        = ((mkBuild 7 "some-job" "pending").ID != 9)
    ∧ (UpdateMaxInFlightReached memDB headOfLineStore headOfLineJob 9).err = none
    ∧ ((UpdateMaxInFlightReached memDB headOfLineStore headOfLineJob 9).reached = false
        ↔ (9 : Int) = (mkBuild 7 "some-job" "pending").ID)
    ∧ ((UpdateMaxInFlightReached memDB headOfLineStore headOfLineJob 9).reached = true
        ↔ (9 : Int) ≠ (mkBuild 7 "some-job" "pending").ID) :=
  UpdateMaxInFlightReached_head_of_line memDB headOfLineStore headOfLineStore headOfLineStore
    headOfLineJob 9 [mkBuild 3 "some-job" "started"] (mkBuild 7 "some-job" "pending")
    rfl (by decide) rfl

/-- C2: for a job with non-zero `MaxInFlight`, if the running-builds query succeeds and returns
    at least `MaxInFlight` builds, the throttle returns `(true, nil)` and its only call on the
    store is the running-builds query: the next pending build is not queried. -/
theorem UpdateMaxInFlightReached_limit_reached {σ : Type} (s : MaxInFlightUpdaterDB σ)
    (st st1 : σ) (jobConfig : JobConfig) (buildID : Int) (builds : List db.Build)
    (hmax : jobConfig.MaxInFlight ≠ 0)
    (hrun : s.GetRunningBuildsBySerialGroup st jobConfig.Name jobConfig.GetSerialGroups
      = (builds, none, st1))
    (hge : (builds.length : Int) ≥ jobConfig.MaxInFlight) :
    (UpdateMaxInFlightReached s st jobConfig buildID).reached = true
    ∧ (UpdateMaxInFlightReached s st jobConfig buildID).err = none
    ∧ (UpdateMaxInFlightReached s st jobConfig buildID).calls
        = [DBCall.getRunningBuildsBySerialGroup jobConfig.Name jobConfig.GetSerialGroups]
    ∧ (∀ jobName serialGroups, DBCall.getNextPendingBuildBySerialGroup jobName serialGroups
        ∉ (UpdateMaxInFlightReached s st jobConfig buildID).calls) := by
  rw [update_limit_reached s st st1 jobConfig buildID builds hmax hrun hge]
  refine ⟨rfl, rfl, rfl, ?_⟩
  intro jobName serialGroups hmem
  simp at hmem

/-- Witness of C2: two builds running under `MaxInFlight = 2`; build 7, although first in
    line, is held back and the pending queue is not read. -/
theorem UpdateMaxInFlightReached_limit_reached_witness :
    headOfLineJob.MaxInFlight ≠ 0
    ∧ (UpdateMaxInFlightReached memDB saturatedStore headOfLineJob 7).reached = true
    ∧ (UpdateMaxInFlightReached memDB saturatedStore headOfLineJob 7).err = none
    ∧ (UpdateMaxInFlightReached memDB saturatedStore headOfLineJob 7).calls
        = [DBCall.getRunningBuildsBySerialGroup headOfLineJob.Name
            headOfLineJob.GetSerialGroups]
    ∧ (∀ jobName serialGroups, DBCall.getNextPendingBuildBySerialGroup jobName serialGroups
        ∉ (UpdateMaxInFlightReached memDB saturatedStore headOfLineJob 7).calls) :=
  ⟨by decide,
    UpdateMaxInFlightReached_limit_reached memDB saturatedStore saturatedStore headOfLineJob 7
      saturatedStore.running (by decide) rfl (by decide)⟩

/-- C3: for a job whose `MaxInFlight` is 0 the throttle returns `(false, nil)`, issues no call
    on the store (no running-builds query, no next-pending query, no
    `SetMaxInFlightReached`) and leaves the store as it was. -/
theorem UpdateMaxInFlightReached_unlimited {σ : Type} (s : MaxInFlightUpdaterDB σ) (st : σ)
    (jobConfig : JobConfig) (buildID : Int) (hmax : jobConfig.MaxInFlight = 0) :
    (UpdateMaxInFlightReached s st jobConfig buildID).reached = false
    ∧ (UpdateMaxInFlightReached s st jobConfig buildID).err = none
    ∧ (UpdateMaxInFlightReached s st jobConfig buildID).calls = []
    ∧ (UpdateMaxInFlightReached s st jobConfig buildID).store = st := by
  rw [update_unlimited s st jobConfig buildID hmax]
  exact ⟨rfl, rfl, rfl, rfl⟩

/-- Witness of C3: an unlimited job is admitted even over a saturated store. -/
theorem UpdateMaxInFlightReached_unlimited_witness :
    unlimitedJob.MaxInFlight = 0
    ∧ (UpdateMaxInFlightReached memDB saturatedStore unlimitedJob 9).reached = false
    ∧ (UpdateMaxInFlightReached memDB saturatedStore unlimitedJob 9).err = none
    ∧ (UpdateMaxInFlightReached memDB saturatedStore unlimitedJob 9).calls = []
    ∧ (UpdateMaxInFlightReached memDB saturatedStore unlimitedJob 9).store = saturatedStore :=
  ⟨rfl, UpdateMaxInFlightReached_unlimited memDB saturatedStore unlimitedJob 9 rfl⟩

/-- C4: for a job with positive `MaxInFlight`, when the running-builds query succeeds with
    fewer than `MaxInFlight` builds and the next-pending query succeeds but finds no pending
    build, the throttle returns `(true, nil)`: the build is not admitted and no error is
    reported. -/
theorem UpdateMaxInFlightReached_pending_missing {σ : Type} (s : MaxInFlightUpdaterDB σ)
    (st st1 st2 : σ) (jobConfig : JobConfig) (buildID : Int) (builds : List db.Build)
    (p : db.Build)
    (hpos : 0 < jobConfig.MaxInFlight)
    (hrun : s.GetRunningBuildsBySerialGroup st jobConfig.Name jobConfig.GetSerialGroups
      = (builds, none, st1))
    (hlt : (builds.length : Int) < jobConfig.MaxInFlight)
    (hnext : s.GetNextPendingBuildBySerialGroup st1 jobConfig.Name jobConfig.GetSerialGroups
      = (p, false, none, st2)) :
    (UpdateMaxInFlightReached s st jobConfig buildID).reached = true
    ∧ (UpdateMaxInFlightReached s st jobConfig buildID).err = none
    ∧ (UpdateMaxInFlightReached s st jobConfig buildID).logs
        = [LogLine.info "pending-build-disappeared-from-serial-group"] := by
  have _ := hpos
  rw [update_pending_missing s st st1 st2 jobConfig buildID builds p hrun hlt hnext]
  exact ⟨rfl, rfl, rfl⟩

/-- Witness of C4: build 7 has left the pending queue by the time the throttle looks. -/
theorem UpdateMaxInFlightReached_pending_missing_witness :
    0 < headOfLineJob.MaxInFlight
    ∧ (UpdateMaxInFlightReached memDB drainedStore headOfLineJob 7).reached = true
    ∧ (UpdateMaxInFlightReached memDB drainedStore headOfLineJob 7).err = none
    ∧ (UpdateMaxInFlightReached memDB drainedStore headOfLineJob 7).logs
        = [LogLine.info "pending-build-disappeared-from-serial-group"] :=
  ⟨by decide,
    UpdateMaxInFlightReached_pending_missing memDB drainedStore drainedStore drainedStore
      headOfLineJob 7 drainedStore.running zeroBuild (by decide) rfl (by decide) rfl⟩

/-- The calls the throttle issues on the store are, in every run, none, the running-builds
    query alone, or the running-builds query followed by the next-pending query. -/
theorem update_calls_shape {σ : Type} (s : MaxInFlightUpdaterDB σ) (st : σ)
    (jobConfig : JobConfig) (buildID : Int) :
    (UpdateMaxInFlightReached s st jobConfig buildID).calls = []
    ∨ (UpdateMaxInFlightReached s st jobConfig buildID).calls
        = [DBCall.getRunningBuildsBySerialGroup jobConfig.Name jobConfig.GetSerialGroups]
    ∨ (UpdateMaxInFlightReached s st jobConfig buildID).calls
        = [DBCall.getRunningBuildsBySerialGroup jobConfig.Name jobConfig.GetSerialGroups,
           DBCall.getNextPendingBuildBySerialGroup jobConfig.Name
             jobConfig.GetSerialGroups] := by
  by_cases hmax : jobConfig.MaxInFlight = 0
  · left
    rw [update_unlimited s st jobConfig buildID hmax]
  · rcases hrun : s.GetRunningBuildsBySerialGroup st jobConfig.Name
        jobConfig.GetSerialGroups with ⟨builds, rerr, st1⟩
    cases rerr with
    | some e =>
      right; left
      rw [update_running_failed s st st1 jobConfig buildID builds e hmax hrun]
    | none =>
      by_cases hge : jobConfig.MaxInFlight ≤ (builds.length : Int)
      · right; left
        rw [update_limit_reached s st st1 jobConfig buildID builds hmax hrun hge]
      · have hlt : (builds.length : Int) < jobConfig.MaxInFlight := not_le.mp hge
        rcases hnext : s.GetNextPendingBuildBySerialGroup st1 jobConfig.Name
            jobConfig.GetSerialGroups with ⟨p, found, nerr, st2⟩
        right; right
        cases nerr with
        | some e =>
          rw [update_pending_failed s st st1 st2 jobConfig buildID builds p found e hrun hlt
            hnext]
        | none =>
          cases found with
          | false =>
            rw [update_pending_missing s st st1 st2 jobConfig buildID builds p hrun hlt hnext]
          | true =>
            rw [update_pending_found s st st1 st2 jobConfig buildID builds p hrun hlt hnext]

/-- C5 (the code at the failing input, and in general): with two builds running under
    `MaxInFlight = 2` the throttle returns `(true, nil)`, yet its only call on the store is
    the running-builds query and the flags recorded in the store stay empty; and in no run
    at all, whatever the store, the job and the build id, does the throttle call
    `SetMaxInFlightReached`. -/
theorem UpdateMaxInFlightReached_does_not_record :
    ((UpdateMaxInFlightReached memDB saturatedStore headOfLineJob 7).reached = true
      ∧ (UpdateMaxInFlightReached memDB saturatedStore headOfLineJob 7).err = none
      ∧ (UpdateMaxInFlightReached memDB saturatedStore headOfLineJob 7).calls
          = [DBCall.getRunningBuildsBySerialGroup "some-job" ["some-job"]]
      ∧ (UpdateMaxInFlightReached memDB saturatedStore headOfLineJob 7).store.reachedFlags
          = [])
    ∧ (∀ (σ : Type) (s : MaxInFlightUpdaterDB σ) (st : σ) (jobConfig : JobConfig)
        (buildID : Int) (jobName : String) (reached : Bool),
        DBCall.setMaxInFlightReached jobName reached
          ∉ (UpdateMaxInFlightReached s st jobConfig buildID).calls) := by
  refine ⟨⟨rfl, rfl, rfl, rfl⟩, ?_⟩
  intro σ s st jobConfig buildID jobName reached hmem
  rcases update_calls_shape s st jobConfig buildID with h | h | h <;>
    rw [h] at hmem <;> simp at hmem

/-- C6: for a job with non-zero `MaxInFlight`, writing `(builds, rerr, st1)` for the result of
    the running-builds query and `(p, found, nerr, st2)` for the result of the next-pending
    query on the store after it: if the first query fails with `e` the throttle returns
    `(false, e)` and never issues the next-pending query; if it succeeds below the limit and
    the second query fails with `e` the throttle returns `(false, e)`; and the throttle returns
    an error `e` in exactly these two cases. -/
theorem UpdateMaxInFlightReached_error_propagation {σ : Type} (s : MaxInFlightUpdaterDB σ)
    (st st1 st2 : σ) (jobConfig : JobConfig) (buildID : Int) (builds : List db.Build)
    (rerr nerr : Option GoError) (p : db.Build) (found : Bool)
    (hmax : jobConfig.MaxInFlight ≠ 0)
    (hrun : s.GetRunningBuildsBySerialGroup st jobConfig.Name jobConfig.GetSerialGroups
      = (builds, rerr, st1))
    (hnext : s.GetNextPendingBuildBySerialGroup st1 jobConfig.Name jobConfig.GetSerialGroups
      = (p, found, nerr, st2)) :
    (∀ e, rerr = some e →
        (UpdateMaxInFlightReached s st jobConfig buildID).reached = false
        ∧ (UpdateMaxInFlightReached s st jobConfig buildID).err = some e
        ∧ (UpdateMaxInFlightReached s st jobConfig buildID).calls
            = [DBCall.getRunningBuildsBySerialGroup jobConfig.Name
                jobConfig.GetSerialGroups])
    ∧ (∀ e, rerr = none → (builds.length : Int) < jobConfig.MaxInFlight → nerr = some e →
        (UpdateMaxInFlightReached s st jobConfig buildID).reached = false
        ∧ (UpdateMaxInFlightReached s st jobConfig buildID).err = some e)
    ∧ (∀ e, (UpdateMaxInFlightReached s st jobConfig buildID).err = some e ↔
        (rerr = some e
          ∨ (rerr = none ∧ (builds.length : Int) < jobConfig.MaxInFlight ∧ nerr = some e))) := by
  refine ⟨?_, ?_, ?_⟩
  · intro e he
    subst he
    rw [update_running_failed s st st1 jobConfig buildID builds e hmax hrun]
    exact ⟨rfl, rfl, rfl⟩
  · intro e hr hlt hn
    subst hr
    subst hn
    rw [update_pending_failed s st st1 st2 jobConfig buildID builds p found e hrun hlt hnext]
    exact ⟨rfl, rfl⟩
  · intro e
    cases rerr with
    | some e1 =>
      rw [update_running_failed s st st1 jobConfig buildID builds e1 hmax hrun]
      simp
    | none =>
      by_cases hge : jobConfig.MaxInFlight ≤ (builds.length : Int)
      · rw [update_limit_reached s st st1 jobConfig buildID builds hmax hrun hge]
        have hnlt : ¬ (builds.length : Int) < jobConfig.MaxInFlight := not_lt.mpr hge
        simp [hnlt]
      · have hlt : (builds.length : Int) < jobConfig.MaxInFlight := not_le.mp hge
        cases nerr with
        | some e2 =>
          rw [update_pending_failed s st st1 st2 jobConfig buildID builds p found e2 hrun hlt
            hnext]
          simp [hlt]
        | none =>
          cases found with
          | false =>
            rw [update_pending_missing s st st1 st2 jobConfig buildID builds p hrun hlt hnext]
            simp
          | true =>
            rw [update_pending_found s st st1 st2 jobConfig buildID builds p hrun hlt hnext]
            simp

/-- Witness of C6: the running-builds query fails with `disaster`. -/
theorem UpdateMaxInFlightReached_error_propagation_witness :
    headOfLineJob.MaxInFlight ≠ 0
    ∧ (∀ e, some "disaster" = some e →
        (UpdateMaxInFlightReached memDB brokenRunningStore headOfLineJob 7).reached = false
        ∧ (UpdateMaxInFlightReached memDB brokenRunningStore headOfLineJob 7).err = some e
        ∧ (UpdateMaxInFlightReached memDB brokenRunningStore headOfLineJob 7).calls
            = [DBCall.getRunningBuildsBySerialGroup headOfLineJob.Name
                headOfLineJob.GetSerialGroups])
    ∧ (∀ e, some "disaster" = none
        → (([] : List db.Build).length : Int) < headOfLineJob.MaxInFlight
        → (none : Option GoError) = some e →
        (UpdateMaxInFlightReached memDB brokenRunningStore headOfLineJob 7).reached = false
        ∧ (UpdateMaxInFlightReached memDB brokenRunningStore headOfLineJob 7).err = some e)
    ∧ (∀ e, (UpdateMaxInFlightReached memDB brokenRunningStore headOfLineJob 7).err = some e ↔
        (some "disaster" = some e
          ∨ (some "disaster" = none
              ∧ (([] : List db.Build).length : Int) < headOfLineJob.MaxInFlight
              ∧ (none : Option GoError) = some e))) :=
  ⟨by decide,
    UpdateMaxInFlightReached_error_propagation memDB brokenRunningStore brokenRunningStore
      brokenRunningStore headOfLineJob 7 [] (some "disaster") none
      (mkBuild 7 "some-job" "pending") true (by decide) rfl rfl⟩

/-- C7: for a job with non-zero `MaxInFlight`, writing `(builds, rerr, st1)` for the result of
    the running-builds query and `(p, found, nerr, st2)` for the result of the next-pending
    query on the store after it: the throttle returns `(false, nil)` if and only if the
    running-builds query succeeded with strictly fewer than `MaxInFlight` builds and the
    next-pending query succeeded and found a build whose id is `buildID`. Hence no build is
    admitted while `MaxInFlight` builds are running, nor one that is not the first pending
    build. -/
theorem UpdateMaxInFlightReached_admits_iff {σ : Type} (s : MaxInFlightUpdaterDB σ)
    (st st1 st2 : σ) (jobConfig : JobConfig) (buildID : Int) (builds : List db.Build)
    (rerr nerr : Option GoError) (p : db.Build) (found : Bool)
    (hmax : jobConfig.MaxInFlight ≠ 0)
    (hrun : s.GetRunningBuildsBySerialGroup st jobConfig.Name jobConfig.GetSerialGroups
      = (builds, rerr, st1))
    (hnext : s.GetNextPendingBuildBySerialGroup st1 jobConfig.Name jobConfig.GetSerialGroups
      = (p, found, nerr, st2)) :
    (((UpdateMaxInFlightReached s st jobConfig buildID).reached = false
        ∧ (UpdateMaxInFlightReached s st jobConfig buildID).err = none)
      ↔ (rerr = none ∧ (builds.length : Int) < jobConfig.MaxInFlight
          ∧ nerr = none ∧ found = true ∧ p.ID = buildID))
    ∧ ((builds.length : Int) ≥ jobConfig.MaxInFlight →
        ¬ ((UpdateMaxInFlightReached s st jobConfig buildID).reached = false
            ∧ (UpdateMaxInFlightReached s st jobConfig buildID).err = none))
    ∧ (p.ID ≠ buildID →
        ¬ ((UpdateMaxInFlightReached s st jobConfig buildID).reached = false
            ∧ (UpdateMaxInFlightReached s st jobConfig buildID).err = none)) := by
  have key : ((UpdateMaxInFlightReached s st jobConfig buildID).reached = false
        ∧ (UpdateMaxInFlightReached s st jobConfig buildID).err = none)
      ↔ (rerr = none ∧ (builds.length : Int) < jobConfig.MaxInFlight
          ∧ nerr = none ∧ found = true ∧ p.ID = buildID) := by
    cases rerr with
    | some e1 =>
      rw [update_running_failed s st st1 jobConfig buildID builds e1 hmax hrun]
      simp
    | none =>
      by_cases hge : jobConfig.MaxInFlight ≤ (builds.length : Int)
      · rw [update_limit_reached s st st1 jobConfig buildID builds hmax hrun hge]
        have hnlt : ¬ (builds.length : Int) < jobConfig.MaxInFlight := not_lt.mpr hge
        simp [hnlt]
      · have hlt : (builds.length : Int) < jobConfig.MaxInFlight := not_le.mp hge
        cases nerr with
        | some e2 =>
          rw [update_pending_failed s st st1 st2 jobConfig buildID builds p found e2 hrun hlt
            hnext]
          simp
        | none =>
          cases found with
          | false =>
            rw [update_pending_missing s st st1 st2 jobConfig buildID builds p hrun hlt hnext]
            simp
          | true =>
            rw [update_pending_found s st st1 st2 jobConfig buildID builds p hrun hlt hnext]
            simp [hlt]
  refine ⟨key, ?_, ?_⟩
  · intro hge hadm
    have h := key.mp hadm
    exact absurd h.2.1 (not_lt.mpr hge)
  · intro hne hadm
    have h := key.mp hadm
    exact hne h.2.2.2.2

/-- Witness of C7 on the head-of-line scenario: build 7 is admitted, being first in line with
    one build running under `MaxInFlight = 2`. -/
theorem UpdateMaxInFlightReached_admits_iff_witness :
    headOfLineJob.MaxInFlight ≠ 0
    ∧ ((UpdateMaxInFlightReached memDB headOfLineStore headOfLineJob 7).reached = false
        ∧ (UpdateMaxInFlightReached memDB headOfLineStore headOfLineJob 7).err = none)
    ∧ ((none : Option GoError) = none
        ∧ ((headOfLineStore.running.length : Int) < headOfLineJob.MaxInFlight)
        ∧ (none : Option GoError) = none ∧ true = true
        ∧ (mkBuild 7 "some-job" "pending").ID = 7) :=
  ⟨by decide,
    (UpdateMaxInFlightReached_admits_iff memDB headOfLineStore headOfLineStore headOfLineStore
      headOfLineJob 7 headOfLineStore.running none none (mkBuild 7 "some-job" "pending") true
      (by decide) rfl rfl).1.mpr ⟨rfl, by decide, rfl, rfl, rfl⟩,
    rfl, by decide, rfl, rfl, rfl⟩

end maxinflight

/-! ## Theorems: the worker registration endpoint -/

namespace workerserver

/-- C8: for every request whose context carries no `"system"` value, or carries it as `false`,
    `RegisterWorker` responds 403 with an empty body and does nothing else: the trace of
    actions is empty, so the body is not decoded, no team is looked up, no telemetry sample
    is emitted and `SaveWorker` is not called. -/
theorem RegisterWorker_forbidden (s : Server) (r : Request)
    (hsys : r.system = none ∨ r.system = some (CtxValue.bool false)) :
    RegisterWorker s r
      = some { w := { Code := some 403, Body := "" }, trace := [] } := by
  rcases hsys with h | h <;>
    simp [RegisterWorker, h, ResponseWriter.new, ResponseWriter.WriteHeader, StatusForbidden]

/-- Witness of C8: a request without the `"system"` context value. -/
theorem RegisterWorker_forbidden_witness :
    (({ system := none, Body := "main", Query := [] } : Request).system = none
      ∨ ({ system := none, Body := "main", Query := [] } : Request).system
          = some (CtxValue.bool false))
    ∧ RegisterWorker exampleServer { system := none, Body := "main", Query := [] }
      = some { w := { Code := some 403, Body := "" }, trace := [] } :=
  ⟨Or.inl rfl,
    RegisterWorker_forbidden exampleServer { system := none, Body := "main", Query := [] }
      (Or.inl rfl)⟩

/-- Unfolding of the handler when the team lookup fails. -/
theorem register_team_lookup_failed (s : Server) (r : Request) (registration : Worker)
    (teamID : Int) (found : Bool) (e : GoError)
    (hsys : r.system = some (CtxValue.bool true))
    (hdec : s.jsonDecode r.Body = (registration, none))
    (hteam : registration.Team ≠ "")
    (hget : s.GetTeam registration.Team = (teamID, found, some e)) :
    RegisterWorker s r
      = some { w := { Code := some 500, Body := "" },
               trace := [Event.decodeBody r.Body, Event.getTeam registration.Team,
                 Event.logError "failed-to-get-team" e] } := by
  simp [RegisterWorker, hsys, hdec, hteam, hget, ResponseWriter.new,
    ResponseWriter.WriteHeader, StatusInternalServerError]

/-- Unfolding of the handler when the team does not exist. -/
theorem register_team_not_found (s : Server) (r : Request) (registration : Worker)
    (teamID : Int)
    (hsys : r.system = some (CtxValue.bool true))
    (hdec : s.jsonDecode r.Body = (registration, none))
    (hteam : registration.Team ≠ "")
    (hget : s.GetTeam registration.Team = (teamID, false, none)) :
    RegisterWorker s r
      = some { w := { Code := some 400, Body := "" },
               trace := [Event.decodeBody r.Body, Event.getTeam registration.Team,
                 Event.logError "team-not-found" "team-not-found"] } := by
  simp [RegisterWorker, hsys, hdec, hteam, hget, ResponseWriter.new,
    ResponseWriter.WriteHeader, StatusBadRequest]

/-- Unfolding of the handler when the team is blank or exists and the garden address is
    empty. The trace is the decoding of the body, followed by the team lookup when a team is
    named. -/
theorem register_missing_address (s : Server) (r : Request) (registration : Worker)
    (hsys : r.system = some (CtxValue.bool true))
    (hdec : s.jsonDecode r.Body = (registration, none))
    (hteam : registration.Team = ""
      ∨ ((s.GetTeam registration.Team).2.1 = true ∧ (s.GetTeam registration.Team).2.2 = none))
    (haddr : registration.GardenAddr = "") :
    RegisterWorker s r
      = some { w := { Code := some 400, Body := "missing address" },
               trace := if registration.Team = "" then [Event.decodeBody r.Body]
                 else [Event.decodeBody r.Body, Event.getTeam registration.Team] } := by
  have hlen : registration.GardenAddr.length = 0 := by rw [haddr]; rfl
  by_cases ht : registration.Team = ""
  · simp [RegisterWorker, hsys, hdec, ht, registerWithTeam, hlen, ResponseWriter.new,
      ResponseWriter.WriteHeader, ResponseWriter.Fprintf, StatusBadRequest]
  · rcases hteam with h | ⟨hf, he⟩
    · exact absurd h ht
    · rcases hget : s.GetTeam registration.Team with ⟨teamID, found, terr⟩
      rw [hget] at hf he
      simp only at hf he
      subst hf
      subst he
      simp [RegisterWorker, hsys, hdec, ht, hget, registerWithTeam, hlen, ResponseWriter.new,
        ResponseWriter.WriteHeader, ResponseWriter.Fprintf, StatusBadRequest]

/-- C9: for every system-privileged request whose body decodes to a registration naming a
    non-blank team: if the team lookup itself fails the response is 500, and if it reports
    that the team does not exist the response is 400; in both cases `SaveWorker` is not
    called and no telemetry sample is emitted. -/
theorem RegisterWorker_team_rejected (s : Server) (r : Request) (registration : Worker)
    (teamID : Int) (found : Bool) (terr : Option GoError)
    (hsys : r.system = some (CtxValue.bool true))
    (hdec : s.jsonDecode r.Body = (registration, none))
    (hteam : registration.Team ≠ "")
    (hget : s.GetTeam registration.Team = (teamID, found, terr))
    (hbad : terr ≠ none ∨ found = false) :
    ∃ h : Handled, RegisterWorker s r = some h
      ∧ (terr ≠ none → h.w.Code = some 500)
      ∧ (terr = none → found = false → h.w.Code = some 400)
      ∧ (∀ ev ∈ h.trace, ev.isSaveWorker = false ∧ ev.isEmit = false) := by
  cases terr with
  | some e =>
    refine ⟨_, register_team_lookup_failed s r registration teamID found e hsys hdec hteam hget,
      fun _ => rfl, fun h => absurd h (by simp), ?_⟩
    intro ev hev
    simp at hev
    rcases hev with h | h | h <;> subst h <;> exact ⟨rfl, rfl⟩
  | none =>
    have hf : found = false := by
      rcases hbad with h | h
      · exact absurd rfl h
      · exact h
    subst hf
    refine ⟨_, register_team_not_found s r registration teamID hsys hdec hteam hget,
      fun h => absurd rfl h, fun _ _ => rfl, ?_⟩
    intro ev hev
    simp at hev
    rcases hev with h | h | h <;> subst h <;> exact ⟨rfl, rfl⟩

/-- Witness of C9: the body names team `ghost`, which the lookup reports as not existing. -/
theorem RegisterWorker_team_rejected_witness :
    (systemRequest "ghost").system = some (CtxValue.bool true)
    ∧ (exampleServer.jsonDecode (systemRequest "ghost").Body).1.Team ≠ ""
    ∧ exampleServer.GetTeam "ghost" = (0, false, none)
    ∧ ∃ h : Handled, RegisterWorker exampleServer (systemRequest "ghost") = some h
      ∧ ((none : Option GoError) ≠ none → h.w.Code = some 500)
      ∧ ((none : Option GoError) = none → false = false → h.w.Code = some 400)
      ∧ (∀ ev ∈ h.trace, ev.isSaveWorker = false ∧ ev.isEmit = false) :=
  ⟨rfl, by decide, rfl,
    RegisterWorker_team_rejected exampleServer (systemRequest "ghost")
      { zeroWorker with GardenAddr := "10.0.0.1:7777", Team := "ghost" } 0 false none
      rfl rfl (by decide) rfl (Or.inr rfl)⟩

/-- C10 fails as stated: the body `"down"` is sent with system privilege and decodes to a
    registration with an empty garden address (naming team `down`, whose lookup fails), and
    the response is 500, not 400. -/
theorem RegisterWorker_empty_address_counterexample :
    (systemRequest "down").system = some (CtxValue.bool true)
    ∧ (exampleServer.jsonDecode (systemRequest "down").Body).2 = none
    ∧ (exampleServer.jsonDecode (systemRequest "down").Body).1.GardenAddr = ""
    ∧ ∃ h : Handled, RegisterWorker exampleServer (systemRequest "down") = some h
      ∧ h.w.Code = some 500 ∧ h.w.Code ≠ some 400 :=
  ⟨rfl, rfl, rfl, _, rfl, rfl, by decide⟩

/-- C10, amended: for every system-privileged request whose body decodes to a registration
    with an empty garden address, `SaveWorker` is not called, and the call is rejected with
    status 400 when the team is blank or the team lookup does not fail, and with status 500
    when the team is non-blank and its lookup fails. -/
theorem RegisterWorker_empty_address (s : Server) (r : Request) (registration : Worker)
    (hsys : r.system = some (CtxValue.bool true))
    (hdec : s.jsonDecode r.Body = (registration, none))
    (haddr : registration.GardenAddr = "") :
    ∃ h : Handled, RegisterWorker s r = some h
      ∧ ((registration.Team = "" ∨ (s.GetTeam registration.Team).2.2 = none) →
          h.w.Code = some 400)
      ∧ ((registration.Team ≠ "" ∧ (s.GetTeam registration.Team).2.2 ≠ none) →
          h.w.Code = some 500)
      ∧ (∀ ev ∈ h.trace, ev.isSaveWorker = false) := by
  by_cases ht : registration.Team = ""
  · refine ⟨_, register_missing_address s r registration hsys hdec (Or.inl ht) haddr,
      fun _ => rfl, fun h => absurd ht h.1, ?_⟩
    intro ev hev
    simp [ht] at hev
    subst hev
    rfl
  · rcases hget : s.GetTeam registration.Team with ⟨teamID, found, terr⟩
    cases terr with
    | some e =>
      refine ⟨_, register_team_lookup_failed s r registration teamID found e hsys hdec ht hget,
        ?_, fun _ => rfl, ?_⟩
      · intro h
        rcases h with h | h
        · exact absurd h ht
        · simp at h
      · intro ev hev
        simp at hev
        rcases hev with h | h | h <;> subst h <;> rfl
    | none =>
      cases found with
      | false =>
        refine ⟨_, register_team_not_found s r registration teamID hsys hdec ht hget,
          fun _ => rfl, ?_, ?_⟩
        · intro h
          exact absurd rfl h.2
        · intro ev hev
          simp at hev
          rcases hev with h | h | h <;> subst h <;> rfl
      | true =>
        refine ⟨_, register_missing_address s r registration hsys hdec
          (Or.inr (by rw [hget]; exact ⟨rfl, rfl⟩)) haddr, fun _ => rfl, ?_, ?_⟩
        · intro h
          exact absurd rfl h.2
        · intro ev hev
          simp [ht] at hev
          rcases hev with h | h <;> subst h <;> rfl

/-- Witness of C10 (amended): the body `"noaddr"` decodes to a team-less registration without
    a garden address. -/
theorem RegisterWorker_empty_address_witness :
    (systemRequest "noaddr").system = some (CtxValue.bool true)
    ∧ exampleServer.jsonDecode (systemRequest "noaddr").Body = (zeroWorker, none)
    ∧ zeroWorker.GardenAddr = ""
    ∧ ∃ h : Handled, RegisterWorker exampleServer (systemRequest "noaddr") = some h
      ∧ ((zeroWorker.Team = "" ∨ (exampleServer.GetTeam zeroWorker.Team).2.2 = none) →
          h.w.Code = some 400)
      ∧ ((zeroWorker.Team ≠ "" ∧ (exampleServer.GetTeam zeroWorker.Team).2.2 ≠ none) →
          h.w.Code = some 500)
      ∧ (∀ ev ∈ h.trace, ev.isSaveWorker = false) :=
  ⟨rfl, rfl, rfl,
    RegisterWorker_empty_address exampleServer (systemRequest "noaddr") zeroWorker rfl rfl rfl⟩

/-- A Go string has length zero exactly when it is the empty string. -/
theorem string_length_eq_zero (x : String) : x.length = 0 ↔ x = "" := by
  constructor
  · intro h
    have hd : x.data = [] := List.length_eq_zero.mp h
    exact String.ext hd
  · intro h
    subst h
    rfl

/-- Unfolding of lines 64-106 when the `ttl` parameter is absent or empty. -/
theorem registerValidated_no_ttl (s : Server) (r : Request) (registration : Worker)
    (teamID : Int) (trace : List Event) (httl : Values.Get r.Query "ttl" = "") :
    registerValidated s r registration teamID trace
      = saveRegistration s registration teamID 0 trace := by
  unfold registerValidated saveRegistration withDefaultName sampleOf workerInfoOf
  simp only [httl]
  by_cases hn : registration.Name = "" <;>
    cases hs : s.SaveWorker _ _ <;> simp_all

/-- Unfolding of lines 64-106 when the `ttl` parameter is given and parses. -/
theorem registerValidated_ttl (s : Server) (r : Request) (registration : Worker)
    (teamID : Int) (trace : List Event) (ttl : Int)
    (httl : Values.Get r.Query "ttl" ≠ "")
    (hparse : s.ParseDuration (Values.Get r.Query "ttl") = (ttl, none)) :
    registerValidated s r registration teamID trace
      = saveRegistration s registration teamID ttl
          (trace ++ [Event.parseDuration (Values.Get r.Query "ttl")]) := by
  have hlen : (Values.Get r.Query "ttl").length > 0 :=
    Nat.pos_of_ne_zero (fun h => httl ((string_length_eq_zero _).mp h))
  unfold registerValidated saveRegistration withDefaultName sampleOf workerInfoOf
  simp only [hlen, hparse, if_true]

/-- Unfolding of lines 64-74 when the `ttl` parameter is given and does not parse. -/
theorem registerValidated_malformed (s : Server) (r : Request) (registration : Worker)
    (teamID : Int) (trace : List Event) (ttl : Int) (e : GoError)
    (httl : Values.Get r.Query "ttl" ≠ "")
    (hparse : s.ParseDuration (Values.Get r.Query "ttl") = (ttl, some e)) :
    registerValidated s r registration teamID trace
      = { w := { Code := some 400, Body := "malformed ttl" },
          trace := trace ++ [Event.parseDuration (Values.Get r.Query "ttl")] } := by
  have hlen : (Values.Get r.Query "ttl").length > 0 :=
    Nat.pos_of_ne_zero (fun h => httl ((string_length_eq_zero _).mp h))
  unfold registerValidated
  simp only [hlen, hparse, if_true]
  rfl

/-- Unfolding of the handler for a registration that passes the team check and has a garden
    address: lines 64-106 run, after the actions of `checkedTrace`. -/
theorem register_checked (s : Server) (r : Request) (registration : Worker) (teamID : Int)
    (hsys : r.system = some (CtxValue.bool true))
    (hdec : s.jsonDecode r.Body = (registration, none))
    (hteam : (registration.Team = "" ∧ teamID = 0)
      ∨ (registration.Team ≠ "" ∧ s.GetTeam registration.Team = (teamID, true, none)))
    (haddr : registration.GardenAddr ≠ "") :
    RegisterWorker s r
      = some (registerValidated s r registration teamID (checkedTrace r registration)) := by
  have hlen : ¬ registration.GardenAddr.length = 0 :=
    fun h => haddr ((string_length_eq_zero _).mp h)
  rcases hteam with ⟨ht, hid⟩ | ⟨ht, hget⟩
  · subst hid
    simp [RegisterWorker, hsys, hdec, ht, registerWithTeam, hlen, checkedTrace]
  · simp [RegisterWorker, hsys, hdec, ht, hget, registerWithTeam, hlen, checkedTrace]

/-- No action of `checkedTrace` is a save or a telemetry sample. -/
theorem checkedTrace_quiet (r : Request) (registration : Worker) :
    ∀ ev ∈ checkedTrace r registration, ev.isSaveWorker = false ∧ ev.isEmit = false := by
  intro ev hev
  unfold checkedTrace at hev
  by_cases ht : registration.Team = ""
  · simp [ht] at hev
    subst hev
    exact ⟨rfl, rfl⟩
  · simp [ht] at hev
    rcases hev with h | h <;> subst h <;> exact ⟨rfl, rfl⟩

/-- A registration whose team is blank or exists passes the team check with some team id. -/
theorem team_checked (s : Server) (registration : Worker)
    (hteam : registration.Team = ""
      ∨ ((s.GetTeam registration.Team).2.1 = true ∧ (s.GetTeam registration.Team).2.2 = none)) :
    ∃ teamID : Int, (registration.Team = "" ∧ teamID = 0)
      ∨ (registration.Team ≠ "" ∧ s.GetTeam registration.Team = (teamID, true, none)) := by
  by_cases ht : registration.Team = ""
  · exact ⟨0, Or.inl ⟨ht, rfl⟩⟩
  · rcases hteam with h | ⟨hf, he⟩
    · exact absurd h ht
    · rcases hget : s.GetTeam registration.Team with ⟨teamID, found, terr⟩
      rw [hget] at hf he
      simp only at hf he
      subst hf
      subst he
      exact ⟨teamID, Or.inr ⟨ht, rfl⟩⟩

/-- The saves and the telemetry samples in the trace of lines 76-106, when the actions before
    them hold neither: one sample, then one save. -/
theorem saveRegistration_trace (s : Server) (registration : Worker) (teamID : Int) (ttl : Int)
    (trace1 : List Event)
    (hquiet : ∀ ev ∈ trace1, ev.isSaveWorker = false ∧ ev.isEmit = false) :
    (saveRegistration s registration teamID ttl trace1).trace.filter Event.isSaveWorker
        = [Event.saveWorker (workerInfoOf (withDefaultName registration) teamID) ttl]
    ∧ (saveRegistration s registration teamID ttl trace1).trace.filter Event.isEmit
        = [Event.emit (sampleOf (withDefaultName registration))] := by
  have h1 : trace1.filter Event.isSaveWorker = [] := by
    rw [List.filter_eq_nil_iff]
    intro ev hev
    simp [(hquiet ev hev).1]
  have h2 : trace1.filter Event.isEmit = [] := by
    rw [List.filter_eq_nil_iff]
    intro ev hev
    simp [(hquiet ev hev).2]
  cases hs : s.SaveWorker (workerInfoOf (withDefaultName registration) teamID) ttl <;>
    simp [saveRegistration, hs, List.filter_append, h1, h2, List.filter_cons,
      Event.isSaveWorker, Event.isEmit]

/-- The response of lines 76-106 is decided by the result of the save. -/
theorem saveRegistration_response (s : Server) (registration : Worker) (teamID : Int)
    (ttl : Int) (trace1 : List Event) :
    (s.SaveWorker (workerInfoOf (withDefaultName registration) teamID) ttl = none →
      (saveRegistration s registration teamID ttl trace1).w = { Code := some 200, Body := "" })
    ∧ (∀ e, s.SaveWorker (workerInfoOf (withDefaultName registration) teamID) ttl = some e →
      (saveRegistration s registration teamID ttl trace1).w
        = { Code := some 500, Body := "" }) := by
  constructor
  · intro hs
    unfold saveRegistration
    simp only [hs]
    rfl
  · intro e hs
    unfold saveRegistration
    simp only [hs]
    rfl

/-- C11: for every system-privileged request whose body decodes, whose team is blank or
    exists, whose garden address is non-empty, and whose `ttl` query parameter is a non-empty
    string that does not parse as a duration, `RegisterWorker` responds 400 with body
    `malformed ttl`; `SaveWorker` is not called and no telemetry sample is emitted. -/
theorem RegisterWorker_malformed_ttl (s : Server) (r : Request) (registration : Worker)
    (e : GoError)
    (hsys : r.system = some (CtxValue.bool true))
    (hdec : s.jsonDecode r.Body = (registration, none))
    (hteam : registration.Team = ""
      ∨ ((s.GetTeam registration.Team).2.1 = true ∧ (s.GetTeam registration.Team).2.2 = none))
    (haddr : registration.GardenAddr ≠ "")
    (httl : Values.Get r.Query "ttl" ≠ "")
    (hparse : (s.ParseDuration (Values.Get r.Query "ttl")).2 = some e) :
    ∃ h : Handled, RegisterWorker s r = some h
      ∧ h.w = { Code := some 400, Body := "malformed ttl" }
      ∧ (∀ ev ∈ h.trace, ev.isSaveWorker = false ∧ ev.isEmit = false) := by
  obtain ⟨teamID, hchecked⟩ := team_checked s registration hteam
  rcases hp : s.ParseDuration (Values.Get r.Query "ttl") with ⟨ttl, perr⟩
  rw [hp] at hparse
  simp only at hparse
  subst hparse
  refine ⟨Handled.mk (ResponseWriter.mk (some 400) "malformed ttl")
    (checkedTrace r registration ++ [Event.parseDuration (Values.Get r.Query "ttl")]),
    ?_, rfl, ?_⟩
  · rw [register_checked s r registration teamID hsys hdec hchecked haddr,
      registerValidated_malformed s r registration teamID _ ttl e httl hp]
  · intro ev hev
    simp only [List.mem_append, List.mem_singleton] at hev
    rcases hev with h | h
    · exact checkedTrace_quiet r registration ev h
    · subst h
      exact ⟨rfl, rfl⟩

/-- Witness of C11: a registration of team `main` sent with `ttl=soon`. -/
theorem RegisterWorker_malformed_ttl_witness :
    (ttlRequest "main" "soon").system = some (CtxValue.bool true)
    ∧ Values.Get (ttlRequest "main" "soon").Query "ttl" ≠ ""
    ∧ (exampleServer.ParseDuration (Values.Get (ttlRequest "main" "soon").Query "ttl")).2
        = some "time: invalid duration"
    ∧ ∃ h : Handled, RegisterWorker exampleServer (ttlRequest "main" "soon") = some h
      ∧ h.w = { Code := some 400, Body := "malformed ttl" }
      ∧ (∀ ev ∈ h.trace, ev.isSaveWorker = false ∧ ev.isEmit = false) :=
  ⟨rfl, by decide, rfl,
    RegisterWorker_malformed_ttl exampleServer (ttlRequest "main" "soon")
      { zeroWorker with GardenAddr := "10.0.0.1:7777", Team := "main" }
      "time: invalid duration" rfl rfl (Or.inr ⟨rfl, rfl⟩) (by decide) (by decide) rfl⟩

/-- Every run of the handler that does not panic either rejects the request, with neither a
    save nor a telemetry sample and a status other than 200, or reaches lines 76-106 with a
    non-empty garden address, the team id of the team check and the `ttl` of lines 64-74. -/
theorem register_outcome (s : Server) (r : Request) (h : Handled)
    (hrun : RegisterWorker s r = some h) :
    ((∀ ev ∈ h.trace, ev.isSaveWorker = false ∧ ev.isEmit = false) ∧ h.w.Code ≠ some 200)
    ∨ ∃ (teamID ttl : Int) (trace1 : List Event),
        (s.jsonDecode r.Body).1.GardenAddr ≠ ""
        ∧ ((Values.Get r.Query "ttl" = "" ∧ ttl = 0)
          ∨ (Values.Get r.Query "ttl" ≠ ""
              ∧ s.ParseDuration (Values.Get r.Query "ttl") = (ttl, none)))
        ∧ (∀ ev ∈ trace1, ev.isSaveWorker = false ∧ ev.isEmit = false)
        ∧ h = saveRegistration s (s.jsonDecode r.Body).1 teamID ttl trace1 := by
  rcases hsys : r.system with _ | ⟨b | _⟩
  · left
    simp [RegisterWorker, hsys, ResponseWriter.new, ResponseWriter.WriteHeader,
      StatusForbidden] at hrun
    subst hrun
    simp
  · cases b with
    | false =>
      left
      simp [RegisterWorker, hsys, ResponseWriter.new, ResponseWriter.WriteHeader,
        StatusForbidden] at hrun
      subst hrun
      simp
    | true =>
      rcases hdec : s.jsonDecode r.Body with ⟨registration, derr⟩
      cases derr with
      | some e =>
        left
        simp [RegisterWorker, hsys, hdec, ResponseWriter.new, ResponseWriter.WriteHeader,
          StatusBadRequest] at hrun
        subst hrun
        simp [Event.isSaveWorker, Event.isEmit]
      | none =>
        have hchecked : ∀ teamID : Int,
            ((registration.Team = "" ∧ teamID = 0)
              ∨ (registration.Team ≠ "" ∧ s.GetTeam registration.Team = (teamID, true, none)))
            → (((∀ ev ∈ h.trace, ev.isSaveWorker = false ∧ ev.isEmit = false)
                  ∧ h.w.Code ≠ some 200)
              ∨ ∃ (teamID ttl : Int) (trace1 : List Event),
                  registration.GardenAddr ≠ ""
                  ∧ ((Values.Get r.Query "ttl" = "" ∧ ttl = 0)
                    ∨ (Values.Get r.Query "ttl" ≠ ""
                        ∧ s.ParseDuration (Values.Get r.Query "ttl") = (ttl, none)))
                  ∧ (∀ ev ∈ trace1, ev.isSaveWorker = false ∧ ev.isEmit = false)
                  ∧ h = saveRegistration s registration teamID ttl trace1) := by
          intro teamID hteam
          by_cases haddr : registration.GardenAddr = ""
          · left
            have hteam2 : registration.Team = ""
                ∨ ((s.GetTeam registration.Team).2.1 = true
                    ∧ (s.GetTeam registration.Team).2.2 = none) := by
              rcases hteam with ⟨ht, _⟩ | ⟨_, hget⟩
              · exact Or.inl ht
              · exact Or.inr (by rw [hget]; exact ⟨rfl, rfl⟩)
            rw [register_missing_address s r registration hsys hdec hteam2 haddr] at hrun
            have hh := Option.some.inj hrun
            subst hh
            refine ⟨?_, by simp⟩
            intro ev hev
            exact checkedTrace_quiet r registration ev hev
          · rw [register_checked s r registration teamID hsys hdec hteam haddr] at hrun
            have hh := Option.some.inj hrun
            by_cases httl : Values.Get r.Query "ttl" = ""
            · right
              rw [registerValidated_no_ttl s r registration teamID _ httl] at hh
              exact ⟨teamID, 0, _, haddr, Or.inl ⟨httl, rfl⟩,
                checkedTrace_quiet r registration, hh.symm⟩
            · rcases hp : s.ParseDuration (Values.Get r.Query "ttl") with ⟨ttl, perr⟩
              cases perr with
              | some e =>
                left
                rw [registerValidated_malformed s r registration teamID _ ttl e httl hp] at hh
                subst hh
                refine ⟨?_, by simp⟩
                intro ev hev
                simp only [List.mem_append, List.mem_singleton] at hev
                rcases hev with h1 | h1
                · exact checkedTrace_quiet r registration ev h1
                · subst h1
                  exact ⟨rfl, rfl⟩
              | none =>
                right
                rw [registerValidated_ttl s r registration teamID _ ttl httl hp] at hh
                refine ⟨teamID, ttl, _, haddr, Or.inr ⟨httl, rfl⟩, ?_, hh.symm⟩
                intro ev hev
                simp only [List.mem_append, List.mem_singleton] at hev
                rcases hev with h1 | h1
                · exact checkedTrace_quiet r registration ev h1
                · subst h1
                  exact ⟨rfl, rfl⟩
        by_cases ht : registration.Team = ""
        · exact hchecked 0 (Or.inl ⟨ht, rfl⟩)
        · rcases hget : s.GetTeam registration.Team with ⟨teamID, found, terr⟩
          cases terr with
          | some e =>
            left
            rw [register_team_lookup_failed s r registration teamID found e hsys hdec ht hget]
              at hrun
            have hh := Option.some.inj hrun
            subst hh
            simp [Event.isSaveWorker, Event.isEmit]
          | none =>
            cases found with
            | false =>
              left
              rw [register_team_not_found s r registration teamID hsys hdec ht hget] at hrun
              have hh := Option.some.inj hrun
              subst hh
              simp [Event.isSaveWorker, Event.isEmit]
            | true => exact hchecked teamID (Or.inr ⟨ht, hget⟩)
  · simp [RegisterWorker, hsys] at hrun

/-- C12: for every system-privileged request that passes all validation (the body decodes,
    the team is blank or found, the garden address is non-empty, the `ttl` parameter is absent
    or well-formed), `RegisterWorker` calls `SaveWorker` exactly once, and the response is
    decided by the result of that call: status 200 with an empty body when the save succeeds,
    status 500 when it fails. -/
theorem RegisterWorker_saves_once (s : Server) (r : Request) (registration : Worker)
    (hsys : r.system = some (CtxValue.bool true))
    (hdec : s.jsonDecode r.Body = (registration, none))
    (hteam : registration.Team = ""
      ∨ ((s.GetTeam registration.Team).2.1 = true ∧ (s.GetTeam registration.Team).2.2 = none))
    (haddr : registration.GardenAddr ≠ "")
    (httl : Values.Get r.Query "ttl" = ""
      ∨ (s.ParseDuration (Values.Get r.Query "ttl")).2 = none) :
    ∃ (h : Handled) (info : WorkerInfo) (ttl : Int), RegisterWorker s r = some h
      ∧ h.trace.filter Event.isSaveWorker = [Event.saveWorker info ttl]
      ∧ (s.SaveWorker info ttl = none → h.w = { Code := some 200, Body := "" })
      ∧ (∀ e, s.SaveWorker info ttl = some e → h.w.Code = some 500) := by
  obtain ⟨teamID, hchecked⟩ := team_checked s registration hteam
  have hrun := register_checked s r registration teamID hsys hdec hchecked haddr
  have hresp : ∀ (ttl : Int) (trace1 : List Event),
      (∀ ev ∈ trace1, ev.isSaveWorker = false ∧ ev.isEmit = false) →
      RegisterWorker s r = some (saveRegistration s registration teamID ttl trace1) →
      ∃ (h : Handled) (info : WorkerInfo) (ttl : Int), RegisterWorker s r = some h
        ∧ h.trace.filter Event.isSaveWorker = [Event.saveWorker info ttl]
        ∧ (s.SaveWorker info ttl = none → h.w = { Code := some 200, Body := "" })
        ∧ (∀ e, s.SaveWorker info ttl = some e → h.w.Code = some 500) := by
    intro ttl trace1 hquiet heq
    refine ⟨_, workerInfoOf (withDefaultName registration) teamID, ttl, heq,
      (saveRegistration_trace s registration teamID ttl trace1 hquiet).1,
      (saveRegistration_response s registration teamID ttl trace1).1, ?_⟩
    intro e he
    rw [(saveRegistration_response s registration teamID ttl trace1).2 e he]
  by_cases hempty : Values.Get r.Query "ttl" = ""
  · rw [registerValidated_no_ttl s r registration teamID _ hempty] at hrun
    exact hresp 0 _ (checkedTrace_quiet r registration) hrun
  · rcases hp : s.ParseDuration (Values.Get r.Query "ttl") with ⟨ttl, perr⟩
    have hnone : perr = none := by
      rcases httl with h1 | h1
      · exact absurd h1 hempty
      · rw [hp] at h1
        exact h1
    subst hnone
    rw [registerValidated_ttl s r registration teamID _ ttl hempty hp] at hrun
    refine hresp ttl _ ?_ hrun
    intro ev hev
    simp only [List.mem_append, List.mem_singleton] at hev
    rcases hev with h1 | h1
    · exact checkedTrace_quiet r registration ev h1
    · subst h1
      exact ⟨rfl, rfl⟩

/-- Witness of C12: a registration of team `main` sent with `ttl=30s` to a server whose save
    fails. -/
theorem RegisterWorker_saves_once_witness :
    (ttlRequest "main" "30s").system = some (CtxValue.bool true)
    ∧ (failingSaveServer.ParseDuration (Values.Get (ttlRequest "main" "30s").Query "ttl")).2
        = none
    ∧ ∃ (h : Handled) (info : WorkerInfo) (ttl : Int),
      RegisterWorker failingSaveServer (ttlRequest "main" "30s") = some h
      ∧ h.trace.filter Event.isSaveWorker = [Event.saveWorker info ttl]
      ∧ (failingSaveServer.SaveWorker info ttl = none → h.w = { Code := some 200, Body := "" })
      ∧ (∀ e, failingSaveServer.SaveWorker info ttl = some e → h.w.Code = some 500) :=
  ⟨rfl, rfl,
    RegisterWorker_saves_once failingSaveServer (ttlRequest "main" "30s")
      { zeroWorker with GardenAddr := "10.0.0.1:7777", Team := "main" }
      rfl rfl (Or.inr ⟨rfl, rfl⟩) (by decide) (Or.inr rfl)⟩

/-- A save found in the trace of lines 76-106 is the one save of those lines. -/
theorem saveRegistration_save_mem (s : Server) (registration : Worker) (teamID : Int)
    (ttl : Int) (trace1 : List Event) (info : WorkerInfo) (ttl1 : Int)
    (hquiet : ∀ ev ∈ trace1, ev.isSaveWorker = false ∧ ev.isEmit = false)
    (hmem : Event.saveWorker info ttl1 ∈ (saveRegistration s registration teamID ttl trace1).trace) :
    info = workerInfoOf (withDefaultName registration) teamID ∧ ttl1 = ttl := by
  have hf : Event.saveWorker info ttl1
      ∈ (saveRegistration s registration teamID ttl trace1).trace.filter Event.isSaveWorker :=
    List.mem_filter.mpr ⟨hmem, rfl⟩
  rw [(saveRegistration_trace s registration teamID ttl trace1 hquiet).1] at hf
  simp only [List.mem_singleton] at hf
  injection hf with h1 h2
  exact ⟨h1, h2⟩

/-- C13: for every registration that reaches `SaveWorker`, the `Name` of the saved
    `WorkerInfo` is the registration's name when that name is non-blank and the
    registration's garden address when the name is blank; the saved `Name` is never empty. -/
theorem RegisterWorker_saved_name (s : Server) (r : Request) (h : Handled)
    (info : WorkerInfo) (ttl : Int)
    (hrun : RegisterWorker s r = some h)
    (hsave : Event.saveWorker info ttl ∈ h.trace) :
    ((s.jsonDecode r.Body).1.Name ≠ "" → info.Name = (s.jsonDecode r.Body).1.Name)
    ∧ ((s.jsonDecode r.Body).1.Name = "" → info.Name = (s.jsonDecode r.Body).1.GardenAddr)
    ∧ info.Name ≠ "" := by
  rcases register_outcome s r h hrun with ⟨hquiet, _⟩ | ⟨teamID, ttl0, trace1, haddr, _, hq, hh⟩
  · have := (hquiet _ hsave).1
    simp [Event.isSaveWorker] at this
  · subst hh
    obtain ⟨hinfo, _⟩ := saveRegistration_save_mem s _ teamID ttl0 trace1 info ttl hq hsave
    subst hinfo
    by_cases hn : (s.jsonDecode r.Body).1.Name = ""
    · simp [workerInfoOf, withDefaultName, hn, haddr]
    · simp [workerInfoOf, withDefaultName, hn]

/-- Witness of C13: the registration of body `main` has no name and is saved under its garden
    address. -/
theorem RegisterWorker_saved_name_witness :
    RegisterWorker exampleServer (systemRequest "main")
        = some (mainOutcome exampleServer 0 [Event.decodeBody "main", Event.getTeam "main"])
    ∧ Event.saveWorker (workerInfoOf (withDefaultName mainRegistration) 1) 0
        ∈ (mainOutcome exampleServer 0 [Event.decodeBody "main", Event.getTeam "main"]).trace
    ∧ (((exampleServer.jsonDecode (systemRequest "main").Body).1.Name ≠ "" →
        (workerInfoOf (withDefaultName mainRegistration) 1).Name
          = (exampleServer.jsonDecode (systemRequest "main").Body).1.Name)
      ∧ ((exampleServer.jsonDecode (systemRequest "main").Body).1.Name = "" →
        (workerInfoOf (withDefaultName mainRegistration) 1).Name
          = (exampleServer.jsonDecode (systemRequest "main").Body).1.GardenAddr)
      ∧ (workerInfoOf (withDefaultName mainRegistration) 1).Name ≠ "") :=
  ⟨rfl, by simp [mainOutcome, saveRegistration, exampleServer],
    RegisterWorker_saved_name exampleServer (systemRequest "main")
      (mainOutcome exampleServer 0 [Event.decodeBody "main", Event.getTeam "main"])
      (workerInfoOf (withDefaultName mainRegistration) 1) 0
      rfl (by simp [mainOutcome, saveRegistration, exampleServer])⟩

/-- The method `url.Values.Get` returns the empty string for a key that is absent. -/
theorem Values_Get_absent (v : List (String × List String)) (key : String)
    (habs : v.lookup key = none) : Values.Get v key = "" := by
  simp [Values.Get, habs]

/-- C14: for every registration that reaches `SaveWorker`, the TTL passed to `SaveWorker` is
    zero when the `ttl` query parameter is absent or empty, and otherwise it is the duration
    that the `ttl` string parses to (and the string does parse). -/
theorem RegisterWorker_saved_ttl (s : Server) (r : Request) (h : Handled)
    (info : WorkerInfo) (ttl : Int)
    (hrun : RegisterWorker s r = some h)
    (hsave : Event.saveWorker info ttl ∈ h.trace) :
    (r.Query.lookup "ttl" = none → ttl = 0)
    ∧ (Values.Get r.Query "ttl" = "" → ttl = 0)
    ∧ (Values.Get r.Query "ttl" ≠ "" →
        s.ParseDuration (Values.Get r.Query "ttl") = (ttl, none)) := by
  rcases register_outcome s r h hrun with ⟨hquiet, _⟩ | ⟨teamID, ttl0, trace1, _, httl, hq, hh⟩
  · have := (hquiet _ hsave).1
    simp [Event.isSaveWorker] at this
  · subst hh
    obtain ⟨_, httl1⟩ := saveRegistration_save_mem s _ teamID ttl0 trace1 info ttl hq hsave
    subst httl1
    rcases httl with ⟨hempty, hz⟩ | ⟨hne, hp⟩
    · exact ⟨fun _ => hz, fun _ => hz, fun hne => absurd hempty hne⟩
    · refine ⟨fun habs => absurd (Values_Get_absent _ _ habs) hne,
        fun hempty => absurd hempty hne, fun _ => hp⟩

/-- Witness of C14: the registration of body `main` sent with `ttl=30s` is saved with a TTL of
    thirty seconds. -/
theorem RegisterWorker_saved_ttl_witness :
    RegisterWorker exampleServer (ttlRequest "main" "30s")
        = some (mainOutcome exampleServer 30000000000
            [Event.decodeBody "main", Event.getTeam "main", Event.parseDuration "30s"])
    ∧ ((ttlRequest "main" "30s").Query.lookup "ttl" = none → (30000000000 : Int) = 0)
    ∧ (Values.Get (ttlRequest "main" "30s").Query "ttl" = "" → (30000000000 : Int) = 0)
    ∧ (Values.Get (ttlRequest "main" "30s").Query "ttl" ≠ "" →
        exampleServer.ParseDuration (Values.Get (ttlRequest "main" "30s").Query "ttl")
          = (30000000000, none)) :=
  ⟨rfl,
    RegisterWorker_saved_ttl exampleServer (ttlRequest "main" "30s")
      (mainOutcome exampleServer 30000000000
        [Event.decodeBody "main", Event.getTeam "main", Event.parseDuration "30s"])
      (workerInfoOf (withDefaultName mainRegistration) 1) 30000000000
      rfl (by simp [mainOutcome, saveRegistration, exampleServer])⟩

/-- C15: for every registration that `RegisterWorker` accepts (answers 200), exactly one
    telemetry sample was emitted and exactly one save was made, and the sample carries the
    worker name as saved (after the blank-name fallback to the garden address) together with
    the active-container count of the registration. -/
theorem RegisterWorker_accepted_sample (s : Server) (r : Request) (h : Handled)
    (hrun : RegisterWorker s r = some h)
    (hok : h.w.Code = some 200) :
    ∃ (info : WorkerInfo) (ttl : Int),
      h.trace.filter Event.isSaveWorker = [Event.saveWorker info ttl]
      ∧ h.trace.filter Event.isEmit
          = [Event.emit { WorkerName := info.Name,
                          Containers := (s.jsonDecode r.Body).1.ActiveContainers }]
      ∧ info.Name = (if (s.jsonDecode r.Body).1.Name = ""
          then (s.jsonDecode r.Body).1.GardenAddr else (s.jsonDecode r.Body).1.Name) := by
  rcases register_outcome s r h hrun with ⟨_, hcode⟩ | ⟨teamID, ttl0, trace1, _, _, hq, hh⟩
  · exact absurd hok hcode
  · subst hh
    refine ⟨workerInfoOf (withDefaultName (s.jsonDecode r.Body).1) teamID, ttl0,
      (saveRegistration_trace s _ teamID ttl0 trace1 hq).1, ?_, ?_⟩
    · rw [(saveRegistration_trace s _ teamID ttl0 trace1 hq).2]
      by_cases hn : (s.jsonDecode r.Body).1.Name = "" <;>
        simp [sampleOf, workerInfoOf, withDefaultName, hn]
    · by_cases hn : (s.jsonDecode r.Body).1.Name = "" <;>
        simp [workerInfoOf, withDefaultName, hn]

/-- Witness of C15: the registration of body `main` is accepted. -/
theorem RegisterWorker_accepted_sample_witness :
    RegisterWorker exampleServer (systemRequest "main")
        = some (mainOutcome exampleServer 0 [Event.decodeBody "main", Event.getTeam "main"])
    ∧ (mainOutcome exampleServer 0 [Event.decodeBody "main", Event.getTeam "main"]).w.Code
        = some 200
    ∧ ∃ (info : WorkerInfo) (ttl : Int),
      (mainOutcome exampleServer 0 [Event.decodeBody "main", Event.getTeam "main"]).trace.filter
          Event.isSaveWorker = [Event.saveWorker info ttl]
      ∧ (mainOutcome exampleServer 0 [Event.decodeBody "main", Event.getTeam "main"]).trace.filter
          Event.isEmit
          = [Event.emit (WorkerContainers.mk info.Name
              (exampleServer.jsonDecode (systemRequest "main").Body).1.ActiveContainers)]
      ∧ info.Name = (if (exampleServer.jsonDecode (systemRequest "main").Body).1.Name = ""
          then (exampleServer.jsonDecode (systemRequest "main").Body).1.GardenAddr
          else (exampleServer.jsonDecode (systemRequest "main").Body).1.Name) :=
  ⟨rfl, rfl,
    RegisterWorker_accepted_sample exampleServer (systemRequest "main")
      (mainOutcome exampleServer 0 [Event.decodeBody "main", Event.getTeam "main"]) rfl rfl⟩

end workerserver

/-! ## Theorems: the worker pool -/

namespace worker

/-- When no worker satisfies the spec, no worker is collected. -/
theorem compatibleFrom_eq_nil (spec : WorkerSpec) (ws : List Worker) (i : Nat)
    (hnone : ∀ w ∈ ws, w.Satisfying spec ≠ none) : compatibleFrom spec i ws = [] := by
  induction ws generalizing i with
  | nil => rfl
  | cons w ws ih =>
    have hw : w.Satisfying spec ≠ none := hnone w (List.mem_cons_self _ _)
    have hrest : ∀ v ∈ ws, v.Satisfying spec ≠ none :=
      fun v hv => hnone v (List.mem_cons_of_mem _ hv)
    cases hs : w.Satisfying spec with
    | none => exact absurd hs hw
    | some e => simp [compatibleFrom, hs, ih (i + 1) hrest]

/-- When some worker satisfies the spec, some worker is collected. -/
theorem compatibleFrom_ne_nil (spec : WorkerSpec) (ws : List Worker) (i : Nat)
    (hsome : ∃ w ∈ ws, w.Satisfying spec = none) : compatibleFrom spec i ws ≠ [] := by
  induction ws generalizing i with
  | nil =>
    obtain ⟨w, hw, _⟩ := hsome
    simp at hw
  | cons w ws ih =>
    cases hs : w.Satisfying spec with
    | none => simp [compatibleFrom, hs]
    | some e =>
      obtain ⟨v, hv, hvs⟩ := hsome
      rcases List.mem_cons.mp hv with h | h
      · subst h
        rw [hs] at hvs
        simp at hvs
      · simp only [compatibleFrom, hs]
        exact ih (i + 1) ⟨v, h, hvs⟩

/-- A collected worker satisfies the spec and sits in the list at the position recorded for
    it. -/
theorem compatibleFrom_mem (spec : WorkerSpec) (ws : List Worker) (i j : Nat) (w : Worker)
    (hmem : (j, w) ∈ compatibleFrom spec i ws) :
    i ≤ j ∧ ws[j - i]? = some w ∧ w.Satisfying spec = none := by
  induction ws generalizing i with
  | nil => simp [compatibleFrom] at hmem
  | cons v ws ih =>
    have hrest : (j, w) ∈ compatibleFrom spec (i + 1) ws →
        i ≤ j ∧ (v :: ws)[j - i]? = some w ∧ w.Satisfying spec = none := by
      intro h
      obtain ⟨hle, hget, hsat⟩ := ih (i + 1) h
      refine ⟨by omega, ?_, hsat⟩
      have hji : j - i = (j - (i + 1)) + 1 := by omega
      rw [hji, List.getElem?_cons_succ]
      exact hget
    cases hs : v.Satisfying spec with
    | none =>
      simp only [compatibleFrom, hs, List.mem_cons] at hmem
      rcases hmem with h | h
      · injection h with h1 h2
        subst h1
        subst h2
        exact ⟨le_refl _, by simp, hs⟩
      · exact hrest h
    | some e =>
      simp only [compatibleFrom, hs] at hmem
      exact hrest hmem

/-- The `Satisfying` calls are one per worker, in list order, each with the spec. -/
theorem satisfyingCalls_eq (spec : WorkerSpec) (ws : List Worker) (i : Nat) :
    satisfyingCalls spec i ws
      = (List.range' i ws.length).map (fun j => PoolCall.satisfying j spec) := by
  induction ws generalizing i with
  | nil => rfl
  | cons w ws ih =>
    simp [satisfyingCalls, ih (i + 1), List.range'_succ]

/-- Filtering the `Satisfying` calls for `Satisfying` calls keeps all of them. -/
theorem satisfyingCalls_filter_satisfying (spec : WorkerSpec) (ws : List Worker) (i : Nat) :
    (satisfyingCalls spec i ws).filter PoolCall.isSatisfying = satisfyingCalls spec i ws := by
  induction ws generalizing i with
  | nil => rfl
  | cons w ws ih => simp [satisfyingCalls, PoolCall.isSatisfying, ih (i + 1)]

/-- No `Satisfying` call is a `CreateContainer` call. -/
theorem satisfyingCalls_filter_create (spec : WorkerSpec) (ws : List Worker) (i : Nat) :
    (satisfyingCalls spec i ws).filter PoolCall.isCreateContainer = [] := by
  induction ws generalizing i with
  | nil => rfl
  | cons w ws ih => simp [satisfyingCalls, PoolCall.isCreateContainer, ih (i + 1)]

/-- C16: when the provider returns the worker list `W` without error and no worker of `W`
    satisfies the worker spec of the container spec, `CreateContainer` fails with
    `ErrNoWorkers` if `W` is empty and otherwise with `NoCompatibleWorkersError` carrying the
    worker spec and all of `W` in order; no container is returned and `CreateContainer` is
    invoked on no worker. -/
theorem CreateContainer_no_compatible (provider : WorkerProvider) (rand : Nat)
    (id : Identifier) (spec : ContainerSpec) (W : List Worker)
    (hW : provider.Workers = (W, none))
    (hnone : ∀ w ∈ W, w.Satisfying spec.WorkerSpec ≠ none) :
    (W = [] → (CreateContainer provider rand id spec).err = some PoolError.ErrNoWorkers)
    ∧ (W ≠ [] → (CreateContainer provider rand id spec).err
        = some (PoolError.NoCompatibleWorkersError spec.WorkerSpec W))
    ∧ (CreateContainer provider rand id spec).container = none
    ∧ (∀ c ∈ (CreateContainer provider rand id spec).calls, c.isCreateContainer = false) := by
  have hc := compatibleFrom_eq_nil spec.WorkerSpec W 0 hnone
  by_cases hlen : W.length = 0
  · have hnil : W = [] := List.length_eq_zero.mp hlen
    have heq : CreateContainer provider rand id spec
        = { container := none, err := some PoolError.ErrNoWorkers,
            calls := PoolCall.workers :: satisfyingCalls spec.WorkerSpec 0 W } := by
      simp only [CreateContainer, hW, hc, hlen, if_true]
    rw [heq]
    refine ⟨fun _ => rfl, fun h => absurd hnil h, rfl, ?_⟩
    intro c hcm
    subst hnil
    simp [satisfyingCalls] at hcm
    subst hcm
    rfl
  · have hnn : W ≠ [] := fun h => hlen (by rw [h]; rfl)
    have heq : CreateContainer provider rand id spec
        = { container := none,
            err := some (PoolError.NoCompatibleWorkersError spec.WorkerSpec W),
            calls := PoolCall.workers :: satisfyingCalls spec.WorkerSpec 0 W } := by
      simp only [CreateContainer, hW, hc, hlen, if_false]
    rw [heq]
    refine ⟨fun h => absurd h hnn, fun _ => rfl, rfl, ?_⟩
    intro c hcm
    rcases List.mem_cons.mp hcm with h | h
    · subst h
      rfl
    · have hf : c ∈ (satisfyingCalls spec.WorkerSpec 0 W).filter PoolCall.isSatisfying := by
        rw [satisfyingCalls_filter_satisfying]
        exact h
      have hs := (List.mem_filter.mp hf).2
      cases c <;> simp [PoolCall.isSatisfying] at hs
      rfl

/-- Witness of C16 on the test suite: three workers, none of which satisfies the spec. -/
theorem CreateContainer_no_compatible_witness :
    (fakeProvider [workerC, workerC, workerC] none none).Workers
        = ([workerC, workerC, workerC], none)
    ∧ (([workerC, workerC, workerC] : List Worker) = [] →
        (CreateContainer (fakeProvider [workerC, workerC, workerC] none none) 5
          someIdentifier someSpec).err = some PoolError.ErrNoWorkers)
    ∧ (([workerC, workerC, workerC] : List Worker) ≠ [] →
        (CreateContainer (fakeProvider [workerC, workerC, workerC] none none) 5
          someIdentifier someSpec).err
          = some (PoolError.NoCompatibleWorkersError someSpec.WorkerSpec
              [workerC, workerC, workerC]))
    ∧ (CreateContainer (fakeProvider [workerC, workerC, workerC] none none) 5
          someIdentifier someSpec).container = none
    ∧ (∀ c ∈ (CreateContainer (fakeProvider [workerC, workerC, workerC] none none) 5
          someIdentifier someSpec).calls, c.isCreateContainer = false) :=
  ⟨rfl,
    CreateContainer_no_compatible (fakeProvider [workerC, workerC, workerC] none none) 5
      someIdentifier someSpec [workerC, workerC, workerC] rfl
      (by
        intro w hw
        simp only [List.mem_cons, List.mem_singleton, List.not_mem_nil, or_false, or_self]
          at hw
        subst hw
        simp [workerC])⟩

/-- C17: when the provider returns the worker list `W` without error and some worker of `W`
    satisfies the worker spec, then whatever the random draw: the `Satisfying` calls are
    exactly one per worker of `W`, in order, each with the worker spec of the container spec;
    exactly one `CreateContainer` call is made, on a worker of `W` that satisfies the worker
    spec; and the container and the error returned are those of that call, unchanged. -/
theorem CreateContainer_delegates (provider : WorkerProvider) (rand : Nat)
    (id : Identifier) (spec : ContainerSpec) (W : List Worker)
    (hW : provider.Workers = (W, none))
    (hsome : ∃ w ∈ W, w.Satisfying spec.WorkerSpec = none) :
    (CreateContainer provider rand id spec).calls.filter PoolCall.isSatisfying
        = (List.range W.length).map (fun i => PoolCall.satisfying i spec.WorkerSpec)
    ∧ ∃ (i : Nat) (w : Worker), W[i]? = some w ∧ w.Satisfying spec.WorkerSpec = none
        ∧ (CreateContainer provider rand id spec).calls.filter PoolCall.isCreateContainer
            = [PoolCall.createContainer i id spec]
        ∧ (CreateContainer provider rand id spec).container = (w.CreateContainer id spec).1
        ∧ (CreateContainer provider rand id spec).err
            = (w.CreateContainer id spec).2.map PoolError.passed := by
  have hne := compatibleFrom_ne_nil spec.WorkerSpec W 0 hsome
  rcases hc : compatibleFrom spec.WorkerSpec 0 W with _ | ⟨c, cs⟩
  · exact absurd hc hne
  · have hlt : rand % (c :: cs).length < (c :: cs).length :=
      Nat.mod_lt _ (by simp)
    have hmem : (c :: cs).getD (rand % (c :: cs).length) c ∈ compatibleFrom spec.WorkerSpec 0 W := by
      rw [hc, List.getD_eq_getElem _ _ hlt]
      exact List.getElem_mem hlt
    obtain ⟨_, hget, hsat⟩ := compatibleFrom_mem spec.WorkerSpec W 0 _ _ hmem
    simp only [CreateContainer, hW, hc]
    refine ⟨?_, ((c :: cs).getD (rand % (c :: cs).length) c).1,
      ((c :: cs).getD (rand % (c :: cs).length) c).2, ?_, hsat, ?_, rfl, rfl⟩
    · rw [List.range_eq_range', ← satisfyingCalls_eq]
      simp [List.filter_append, List.filter_cons, PoolCall.isSatisfying,
        satisfyingCalls_filter_satisfying]
    · simpa using hget
    · simp [List.filter_append, List.filter_cons, PoolCall.isCreateContainer,
        satisfyingCalls_filter_create]

/-- Witness of C17 on the test suite: workers A, B and C, of which A and B satisfy the spec. -/
theorem CreateContainer_delegates_witness :
    (∃ w ∈ [workerA, workerA, workerC], w.Satisfying someSpec.WorkerSpec = none)
    ∧ (CreateContainer (fakeProvider [workerA, workerA, workerC] none none) 7
          someIdentifier someSpec).calls.filter PoolCall.isSatisfying
        = (List.range [workerA, workerA, workerC].length).map
            (fun i => PoolCall.satisfying i someSpec.WorkerSpec)
    ∧ ∃ (i : Nat) (w : Worker), [workerA, workerA, workerC][i]? = some w
        ∧ w.Satisfying someSpec.WorkerSpec = none
        ∧ (CreateContainer (fakeProvider [workerA, workerA, workerC] none none) 7
            someIdentifier someSpec).calls.filter PoolCall.isCreateContainer
            = [PoolCall.createContainer i someIdentifier someSpec]
        ∧ (CreateContainer (fakeProvider [workerA, workerA, workerC] none none) 7
            someIdentifier someSpec).container = (w.CreateContainer someIdentifier someSpec).1
        ∧ (CreateContainer (fakeProvider [workerA, workerA, workerC] none none) 7
            someIdentifier someSpec).err
            = (w.CreateContainer someIdentifier someSpec).2.map PoolError.passed :=
  ⟨⟨workerA, List.mem_cons_self _ _, rfl⟩,
    CreateContainer_delegates (fakeProvider [workerA, workerA, workerC] none none) 7
      someIdentifier someSpec [workerA, workerA, workerC] rfl
      ⟨workerA, List.mem_cons_self _ _, rfl⟩⟩

/-- Unfolding of steps 2 and 3 of the lookup when the owning worker does not know the
    handle. -/
theorem lookupOnWorker_stale (provider : WorkerProvider) (info : ContainerInfo)
    (handle : String) (calls : List PoolCall) (w : Worker)
    (hworker : provider.GetWorker info.WorkerName = (some w, none))
    (hstale : w.LookupContainer handle = (none, none)) :
    lookupOnWorker provider info handle calls
      = { container := none, found := false,
          err := (provider.ReapContainer handle).map PoolError.passed,
          calls := calls ++ [PoolCall.getWorker info.WorkerName]
            ++ [PoolCall.lookupContainer handle] ++ [PoolCall.reapContainer handle] } := by
  cases hr : provider.ReapContainer handle <;>
    simp [lookupOnWorker, hworker, hstale, hr]

/-- The results of step 2 of the lookup when the owning worker is not in the registry. -/
theorem lookupOnWorker_missing (provider : WorkerProvider) (info : ContainerInfo)
    (handle : String) (calls : List PoolCall)
    (hworker : provider.GetWorker info.WorkerName = (none, none)) :
    (lookupOnWorker provider info handle calls).container = none
    ∧ (lookupOnWorker provider info handle calls).found = false
    ∧ (lookupOnWorker provider info handle calls).err = some PoolError.ErrMissingWorker := by
  simp [lookupOnWorker, hworker]

/-- C18: for both lookups, when the store record is found, its owning worker is resolved and
    that worker reports the handle as not found without error, the pool makes exactly one
    `ReapContainer` call, with the handle it asked the worker to look up (the handle given for
    `LookupContainer`, the handle of the record for `FindContainerForIdentifier`), and returns
    absent with the result of the reap as its error: no error when the reap succeeds, the
    error of the reap when it fails. -/
theorem lookup_reaps_stale (provider : WorkerProvider) :
    (∀ (handle : String) (info : ContainerInfo) (w : Worker),
      provider.GetContainerInfo handle = (some info, none) →
      provider.GetWorker info.WorkerName = (some w, none) →
      w.LookupContainer handle = (none, none) →
      ((LookupContainer provider handle).calls.filter PoolCall.isReapContainer
          = [PoolCall.reapContainer handle]
        ∧ PoolCall.lookupContainer handle ∈ (LookupContainer provider handle).calls
        ∧ (LookupContainer provider handle).container = none
        ∧ (LookupContainer provider handle).found = false
        ∧ (provider.ReapContainer handle = none → (LookupContainer provider handle).err = none)
        ∧ (∀ e, provider.ReapContainer handle = some e →
            (LookupContainer provider handle).err = some (PoolError.passed e))))
    ∧ (∀ (id : Identifier) (info : ContainerInfo) (w : Worker),
      provider.FindContainerInfoForIdentifier id = (some info, none) →
      provider.GetWorker info.WorkerName = (some w, none) →
      w.LookupContainer info.Handle = (none, none) →
      ((FindContainerForIdentifier provider id).calls.filter PoolCall.isReapContainer
          = [PoolCall.reapContainer info.Handle]
        ∧ PoolCall.lookupContainer info.Handle ∈ (FindContainerForIdentifier provider id).calls
        ∧ (FindContainerForIdentifier provider id).container = none
        ∧ (FindContainerForIdentifier provider id).found = false
        ∧ (provider.ReapContainer info.Handle = none →
            (FindContainerForIdentifier provider id).err = none)
        ∧ (∀ e, provider.ReapContainer info.Handle = some e →
            (FindContainerForIdentifier provider id).err = some (PoolError.passed e)))) := by
  constructor
  · intro handle info w hinfo hworker hstale
    have h1 : LookupContainer provider handle
        = lookupOnWorker provider info handle [PoolCall.getContainerInfo handle] := by
      simp [LookupContainer, hinfo]
    rw [h1, lookupOnWorker_stale provider info handle _ w hworker hstale]
    refine ⟨?_, ?_, rfl, rfl, ?_, ?_⟩
    · simp [List.filter_cons, PoolCall.isReapContainer]
    · simp
    · intro hr
      simp [hr]
    · intro e hr
      simp [hr]
  · intro id info w hinfo hworker hstale
    have h2 : FindContainerForIdentifier provider id
        = lookupOnWorker provider info info.Handle
            [PoolCall.findContainerInfoForIdentifier id] := by
      simp [FindContainerForIdentifier, hinfo]
    rw [h2, lookupOnWorker_stale provider info info.Handle _ w hworker hstale]
    refine ⟨?_, ?_, rfl, rfl, ?_, ?_⟩
    · simp [List.filter_cons, PoolCall.isReapContainer]
    · simp
    · intro hr
      simp [hr]
    · intro e hr
      simp [hr]

/-- Witness of C18 on the test suite: the record names `some-worker`, which resolves to a
    worker that knows no container, and the reap fails with `nope`. -/
theorem lookup_reaps_stale_witness :
    ((LookupContainer (fakeProvider [] (some workerA) (some "nope"))
          "some-handle").calls.filter PoolCall.isReapContainer
        = [PoolCall.reapContainer "some-handle"]
      ∧ PoolCall.lookupContainer "some-handle"
          ∈ (LookupContainer (fakeProvider [] (some workerA) (some "nope")) "some-handle").calls
      ∧ (LookupContainer (fakeProvider [] (some workerA) (some "nope"))
          "some-handle").container = none
      ∧ (LookupContainer (fakeProvider [] (some workerA) (some "nope"))
          "some-handle").found = false
      ∧ ((fakeProvider [] (some workerA) (some "nope")).ReapContainer "some-handle" = none →
          (LookupContainer (fakeProvider [] (some workerA) (some "nope"))
            "some-handle").err = none)
      ∧ (∀ e, (fakeProvider [] (some workerA) (some "nope")).ReapContainer "some-handle"
            = some e →
          (LookupContainer (fakeProvider [] (some workerA) (some "nope"))
            "some-handle").err = some (PoolError.passed e)))
    ∧ ((FindContainerForIdentifier (fakeProvider [] (some workerA) (some "nope"))
          someIdentifier).calls.filter PoolCall.isReapContainer
        = [PoolCall.reapContainer someContainerInfo.Handle]
      ∧ PoolCall.lookupContainer someContainerInfo.Handle
          ∈ (FindContainerForIdentifier (fakeProvider [] (some workerA) (some "nope"))
              someIdentifier).calls
      ∧ (FindContainerForIdentifier (fakeProvider [] (some workerA) (some "nope"))
          someIdentifier).container = none
      ∧ (FindContainerForIdentifier (fakeProvider [] (some workerA) (some "nope"))
          someIdentifier).found = false
      ∧ ((fakeProvider [] (some workerA) (some "nope")).ReapContainer
            someContainerInfo.Handle = none →
          (FindContainerForIdentifier (fakeProvider [] (some workerA) (some "nope"))
            someIdentifier).err = none)
      ∧ (∀ e, (fakeProvider [] (some workerA) (some "nope")).ReapContainer
            someContainerInfo.Handle = some e →
          (FindContainerForIdentifier (fakeProvider [] (some workerA) (some "nope"))
            someIdentifier).err = some (PoolError.passed e))) :=
  ⟨(lookup_reaps_stale (fakeProvider [] (some workerA) (some "nope"))).1 "some-handle"
      someContainerInfo workerA rfl rfl rfl,
    (lookup_reaps_stale (fakeProvider [] (some workerA) (some "nope"))).2 someIdentifier
      someContainerInfo workerA rfl rfl rfl⟩

/-- C19 fails as stated: in the test suite setting where the record is found and the owning
    worker is not in the registry (`GetWorker` gives absent, no error), both lookups return
    the error `ErrMissingWorker`, not no error. -/
theorem lookup_missing_worker_counterexample :
    (fakeProvider [] none none).GetContainerInfo "some-handle" = (some someContainerInfo, none)
    ∧ (fakeProvider [] none none).FindContainerInfoForIdentifier someIdentifier
        = (some someContainerInfo, none)
    ∧ (fakeProvider [] none none).GetWorker someContainerInfo.WorkerName = (none, none)
    ∧ (LookupContainer (fakeProvider [] none none) "some-handle").err
        = some PoolError.ErrMissingWorker
    ∧ (LookupContainer (fakeProvider [] none none) "some-handle").err ≠ none
    ∧ (FindContainerForIdentifier (fakeProvider [] none none) someIdentifier).err
        = some PoolError.ErrMissingWorker
    ∧ (FindContainerForIdentifier (fakeProvider [] none none) someIdentifier).err ≠ none :=
  ⟨rfl, rfl, rfl, rfl, fun h => Option.noConfusion h, rfl, fun h => Option.noConfusion h⟩

/-- C19, amended: for both lookups, when the store record is found and the owning worker is
    not in the registry (`GetWorker` gives absent, no error), the lookup returns absent (no
    container, found `false`) together with the error `ErrMissingWorker`. -/
theorem lookup_missing_worker (provider : WorkerProvider) :
    (∀ (handle : String) (info : ContainerInfo),
      provider.GetContainerInfo handle = (some info, none) →
      provider.GetWorker info.WorkerName = (none, none) →
      ((LookupContainer provider handle).container = none
        ∧ (LookupContainer provider handle).found = false
        ∧ (LookupContainer provider handle).err = some PoolError.ErrMissingWorker))
    ∧ (∀ (id : Identifier) (info : ContainerInfo),
      provider.FindContainerInfoForIdentifier id = (some info, none) →
      provider.GetWorker info.WorkerName = (none, none) →
      ((FindContainerForIdentifier provider id).container = none
        ∧ (FindContainerForIdentifier provider id).found = false
        ∧ (FindContainerForIdentifier provider id).err
            = some PoolError.ErrMissingWorker)) := by
  constructor
  · intro handle info hinfo hworker
    have h1 : LookupContainer provider handle
        = lookupOnWorker provider info handle [PoolCall.getContainerInfo handle] := by
      simp [LookupContainer, hinfo]
    rw [h1]
    exact lookupOnWorker_missing provider info handle _ hworker
  · intro id info hinfo hworker
    have h2 : FindContainerForIdentifier provider id
        = lookupOnWorker provider info info.Handle
            [PoolCall.findContainerInfoForIdentifier id] := by
      simp [FindContainerForIdentifier, hinfo]
    rw [h2]
    exact lookupOnWorker_missing provider info info.Handle _ hworker

/-- Witness of C19 (amended) on the test suite: `GetWorker` gives absent. -/
theorem lookup_missing_worker_witness :
    ((fakeProvider [] none none).GetContainerInfo "some-handle"
        = (some someContainerInfo, none)
      ∧ (fakeProvider [] none none).GetWorker someContainerInfo.WorkerName = (none, none)
      ∧ (LookupContainer (fakeProvider [] none none) "some-handle").container = none
      ∧ (LookupContainer (fakeProvider [] none none) "some-handle").found = false
      ∧ (LookupContainer (fakeProvider [] none none) "some-handle").err
          = some PoolError.ErrMissingWorker)
    ∧ ((fakeProvider [] none none).FindContainerInfoForIdentifier someIdentifier
        = (some someContainerInfo, none)
      ∧ (FindContainerForIdentifier (fakeProvider [] none none) someIdentifier).container = none
      ∧ (FindContainerForIdentifier (fakeProvider [] none none) someIdentifier).found = false
      ∧ (FindContainerForIdentifier (fakeProvider [] none none) someIdentifier).err
          = some PoolError.ErrMissingWorker) :=
  ⟨⟨rfl, rfl,
      (lookup_missing_worker (fakeProvider [] none none)).1 "some-handle" someContainerInfo
        rfl rfl⟩,
    ⟨rfl,
      (lookup_missing_worker (fakeProvider [] none none)).2 someIdentifier someContainerInfo
        rfl rfl⟩⟩

end worker

/-! ## Theorems: the resource runner -/

namespace resource

/-- A property just set is present with the value set. -/
theorem Property_SetProperty (ps : Properties) (name value : String) :
    (ps.SetProperty name value).Property name = some value := by
  simp [Properties.SetProperty, Properties.Property, List.lookup]

/-- A run that awaited the script and succeeded has stored, as the result property, a text
    that decodes to the version and metadata it returns. -/
theorem awaitScript_completed (codec : Codec) (ps : Properties) (rt : Runtime)
    (calls : List ContainerCall) (hok : (awaitScript codec ps rt calls).err = none) :
    ∃ (result : String) (resp : Response),
      (awaitScript codec ps rt calls).properties.Property resourceResultPropertyName
          = some result
      ∧ codec.decode result = some resp
      ∧ (awaitScript codec ps rt calls).versionedSource
          = some { Version := resp.version, Metadata := resp.metadata } := by
  unfold awaitScript at hok ⊢
  cases hs : rt.script with
  | startFails e => simp [hs] at hok
  | interrupted stopErr => simp [hs] at hok
  | exits status stdout stderr =>
    simp only [hs] at hok ⊢
    by_cases hst : status ≠ 0
    · simp [hst] at hok
    · cases hd : codec.decode stdout with
      | none => simp [hst, hd] at hok
      | some resp =>
        refine ⟨stdout, resp, ?_, hd, ?_⟩
        · simp only [hst, hd, if_false]
          exact Property_SetProperty ps _ stdout
        · simp only [hst, hd, if_false]

/-- Unfolding of the runner when the result property is present and decodes. -/
theorem Get_of_result (codec : Codec) (ps : Properties) (rt : Runtime) (request : Request)
    (result : String) (resp : Response)
    (hprop : ps.Property resourceResultPropertyName = some result)
    (hdec : codec.decode result = some resp) :
    Get codec ps rt request
      = { versionedSource := some { Version := resp.version, Metadata := resp.metadata },
          err := none, properties := ps,
          calls := [ContainerCall.property resourceResultPropertyName], stderr := "" } := by
  simp [Get, hprop, hdec]

/-- A run that succeeded leaves a result property that decodes to the version and metadata it
    returned. -/
theorem Get_completed (codec : Codec) (ps : Properties) (rt : Runtime) (request : Request)
    (hok : (Get codec ps rt request).err = none) :
    ∃ (result : String) (resp : Response),
      (Get codec ps rt request).properties.Property resourceResultPropertyName = some result
      ∧ codec.decode result = some resp
      ∧ (Get codec ps rt request).versionedSource
          = some { Version := resp.version, Metadata := resp.metadata } := by
  cases hprop : ps.Property resourceResultPropertyName with
  | some result =>
    cases hdec : codec.decode result with
    | none => simp [Get, hprop, hdec] at hok
    | some resp =>
      rw [Get_of_result codec ps rt request result resp hprop hdec]
      exact ⟨result, resp, hprop, hdec, rfl⟩
  | none =>
    cases hproc : ps.Property resourceProcessPropertyName with
    | some processID =>
      have heq : Get codec ps rt request
          = awaitScript codec ps rt
              ([ContainerCall.property resourceResultPropertyName]
                ++ [ContainerCall.property resourceProcessPropertyName]
                ++ [ContainerCall.attach processID (codec.encode request)]) := by
        simp [Get, hprop, hproc]
      rw [heq] at hok ⊢
      exact awaitScript_completed codec ps rt _ hok
    | none =>
      cases hs : rt.script with
      | startFails e => simp [Get, hprop, hproc, hs] at hok
      | interrupted stopErr =>
        have heq : Get codec ps rt request
            = awaitScript codec (ps.SetProperty resourceProcessPropertyName rt.processID) rt
                ([ContainerCall.property resourceResultPropertyName]
                  ++ [ContainerCall.property resourceProcessPropertyName]
                  ++ [ContainerCall.run "/opt/resource/in" ["/tmp/build/get"]
                        (codec.encode request)]
                  ++ [ContainerCall.setProperty resourceProcessPropertyName
                        rt.processID]) := by
          simp [Get, hprop, hproc, hs]
        rw [heq] at hok ⊢
        exact awaitScript_completed codec _ rt _ hok
      | exits status stdout stderr =>
        have heq : Get codec ps rt request
            = awaitScript codec (ps.SetProperty resourceProcessPropertyName rt.processID) rt
                ([ContainerCall.property resourceResultPropertyName]
                  ++ [ContainerCall.property resourceProcessPropertyName]
                  ++ [ContainerCall.run "/opt/resource/in" ["/tmp/build/get"]
                        (codec.encode request)]
                  ++ [ContainerCall.setProperty resourceProcessPropertyName
                        rt.processID]) := by
          simp [Get, hprop, hproc, hs]
        rw [heq] at hok ⊢
        exact awaitScript_completed codec _ rt _ hok

/-- C20: for every `Get` run against a container whose `concourse:resource-result` property is
    present and holds a text that decodes as a response: the run succeeds, its only call on
    the container is the reading of that property (neither `Run` nor `Attach`), the returned
    `Version` and `Metadata` are those decoded from the property, and the property bag is
    unchanged. Hence a second run after any run that succeeded returns the same version and
    metadata without `Run` or `Attach`, whatever the script would do. -/
theorem Get_memoized (codec : Codec) (ps : Properties) (rt : Runtime) (request : Request)
    (result : String) (resp : Response)
    (hprop : ps.Property resourceResultPropertyName = some result)
    (hdec : codec.decode result = some resp) :
    ((Get codec ps rt request).err = none
      ∧ (Get codec ps rt request).versionedSource
          = some { Version := resp.version, Metadata := resp.metadata }
      ∧ (Get codec ps rt request).calls = [ContainerCall.property resourceResultPropertyName]
      ∧ (∀ call ∈ (Get codec ps rt request).calls, call.isRun = false ∧ call.isAttach = false)
      ∧ (Get codec ps rt request).properties = ps)
    ∧ (∀ (ps0 : Properties) (rt0 rt2 : Runtime) (request0 request2 : Request),
        (Get codec ps0 rt0 request0).err = none →
        ((Get codec (Get codec ps0 rt0 request0).properties rt2 request2).err = none
          ∧ (Get codec (Get codec ps0 rt0 request0).properties rt2 request2).versionedSource
              = (Get codec ps0 rt0 request0).versionedSource
          ∧ (∀ call ∈ (Get codec (Get codec ps0 rt0 request0).properties rt2 request2).calls,
              call.isRun = false ∧ call.isAttach = false))) := by
  constructor
  · rw [Get_of_result codec ps rt request result resp hprop hdec]
    refine ⟨rfl, rfl, rfl, ?_, rfl⟩
    intro call hcall
    simp only [List.mem_singleton] at hcall
    subst hcall
    exact ⟨rfl, rfl⟩
  · intro ps0 rt0 rt2 request0 request2 hok
    obtain ⟨result0, resp0, hp0, hd0, hv0⟩ := Get_completed codec ps0 rt0 request0 hok
    rw [Get_of_result codec _ rt2 request2 result0 resp0 hp0 hd0, hv0]
    refine ⟨rfl, rfl, ?_⟩
    intro call hcall
    simp only [List.mem_singleton] at hcall
    subst hcall
    exact ⟨rfl, rfl⟩

/-- Witness of C20 on the test suite: the result property holds the stored response, and the
    script could not even be started. -/
theorem Get_memoized_witness :
    Properties.Property [(resourceResultPropertyName, storedResult)]
        resourceResultPropertyName = some storedResult
    ∧ exampleCodec.decode storedResult = some storedResponse
    ∧ (Get exampleCodec [(resourceResultPropertyName, storedResult)] brokenRuntime
          exampleRequest).err = none
    ∧ (Get exampleCodec [(resourceResultPropertyName, storedResult)] brokenRuntime
          exampleRequest).versionedSource
        = some { Version := [("some", "new-version")],
                 Metadata := [{ Name := "a", Value := "a-value" },
                              { Name := "b", Value := "b-value" }] }
    ∧ (∀ call ∈ (Get exampleCodec [(resourceResultPropertyName, storedResult)] brokenRuntime
          exampleRequest).calls, call.isRun = false ∧ call.isAttach = false) :=
  ⟨rfl, rfl,
    (Get_memoized exampleCodec [(resourceResultPropertyName, storedResult)] brokenRuntime
      exampleRequest storedResult storedResponse rfl rfl).1.1,
    (Get_memoized exampleCodec [(resourceResultPropertyName, storedResult)] brokenRuntime
      exampleRequest storedResult storedResponse rfl rfl).1.2.1,
    (Get_memoized exampleCodec [(resourceResultPropertyName, storedResult)] brokenRuntime
      exampleRequest storedResult storedResponse rfl rfl).1.2.2.2.1⟩

end resource

/-! ## Theorems: versioned resources -/

namespace db

/-- The loop over a suffix none of whose elements has the name falls through to line 43. -/
theorem lookupLoop_absent (vrs : List VersionedResource) (name : String)
    (rest : List VersionedResource) (habs : ∀ v ∈ rest, v.Name ≠ name) :
    VersionedResources.lookupLoop vrs name rest = (VersionedResource.zero, false, vrs) := by
  induction rest with
  | nil => rfl
  | cons v rest ih =>
    have hv : v.Name ≠ name := habs v (List.mem_cons_self _ _)
    simp only [VersionedResources.lookupLoop, hv, if_false]
    exact ih (fun u hu => habs u (List.mem_cons_of_mem _ hu))

/-- The loop returns the first element of the suffix that has the name. -/
theorem lookupLoop_first (vrs : List VersionedResource) (name : String)
    (pre post : List VersionedResource) (vr : VersionedResource)
    (hname : vr.Name = name) (hpre : ∀ v ∈ pre, v.Name ≠ name) :
    VersionedResources.lookupLoop vrs name (pre ++ vr :: post) = (vr, true, vrs) := by
  induction pre with
  | nil => simp [VersionedResources.lookupLoop, hname]
  | cons v pre ih =>
    have hv : v.Name ≠ name := hpre v (List.mem_cons_self _ _)
    simp only [List.cons_append, VersionedResources.lookupLoop, hv, if_false]
    exact ih (fun u hu => hpre u (List.mem_cons_of_mem _ hu))

/-- When the loop reports a find, some element of the suffix has the name. -/
theorem lookupLoop_found (vrs : List VersionedResource) (name : String)
    (rest : List VersionedResource)
    (hfound : (VersionedResources.lookupLoop vrs name rest).2.1 = true) :
    ∃ v ∈ rest, v.Name = name := by
  induction rest with
  | nil => simp [VersionedResources.lookupLoop] at hfound
  | cons v rest ih =>
    by_cases hv : v.Name = name
    · exact ⟨v, List.mem_cons_self _ _, hv⟩
    · simp only [VersionedResources.lookupLoop, hv, if_false] at hfound
      obtain ⟨u, hu, hun⟩ := ih hfound
      exact ⟨u, List.mem_cons_of_mem _ hu, hun⟩

/-- A list with an element of the given name splits at the first such element. -/
theorem first_named (vrs : List VersionedResource) (name : String)
    (hex : ∃ v ∈ vrs, v.Name = name) :
    ∃ (pre : List VersionedResource) (vr : VersionedResource) (post : List VersionedResource),
      vrs = pre ++ vr :: post ∧ vr.Name = name ∧ ∀ v ∈ pre, v.Name ≠ name := by
  induction vrs with
  | nil =>
    obtain ⟨v, hv, _⟩ := hex
    simp at hv
  | cons u vrs ih =>
    by_cases hu : u.Name = name
    · exact ⟨[], u, vrs, rfl, hu, fun v hv => by simp at hv⟩
    · obtain ⟨v, hv, hvn⟩ := hex
      have hrest : ∃ v ∈ vrs, v.Name = name := by
        rcases List.mem_cons.mp hv with h | h
        · subst h
          exact absurd hvn hu
        · exact ⟨v, h, hvn⟩
      obtain ⟨pre, vr, post, hsplit, hname, hpre⟩ := ih hrest
      refine ⟨u :: pre, vr, post, by rw [hsplit]; rfl, hname, ?_⟩
      intro w hw
      rcases List.mem_cons.mp hw with h | h
      · subst h
        exact hu
      · exact hpre w h

/-- C21: for every list `vrs` of versioned resources and every name, `Lookup` returns
    `(vr, true)` where `vr` is the first element of `vrs`, in list order, whose `Name` equals
    the name, when there is such an element (and then there is a first one); it returns the
    zero `VersionedResource` and `false` when no element has that name, and `false` only
    then; the list is the same after the call. -/
theorem VersionedResources_Lookup_first (vrs : List VersionedResource) (name : String) :
    (∀ (pre : List VersionedResource) (vr : VersionedResource) (post : List VersionedResource),
      vrs = pre ++ vr :: post → vr.Name = name → (∀ v ∈ pre, v.Name ≠ name) →
      VersionedResources.Lookup vrs name = (vr, true, vrs))
    ∧ ((∃ v ∈ vrs, v.Name = name) →
      ∃ (pre : List VersionedResource) (vr : VersionedResource)
        (post : List VersionedResource),
        vrs = pre ++ vr :: post ∧ vr.Name = name ∧ (∀ v ∈ pre, v.Name ≠ name)
        ∧ VersionedResources.Lookup vrs name = (vr, true, vrs))
    ∧ ((∀ v ∈ vrs, v.Name ≠ name) →
      VersionedResources.Lookup vrs name = (VersionedResource.zero, false, vrs))
    ∧ ((VersionedResources.Lookup vrs name).2.1 = false ↔ ∀ v ∈ vrs, v.Name ≠ name)
    ∧ (VersionedResources.Lookup vrs name).2.2 = vrs := by
  have hfirst : ∀ (pre : List VersionedResource) (vr : VersionedResource)
      (post : List VersionedResource),
      vrs = pre ++ vr :: post → vr.Name = name → (∀ v ∈ pre, v.Name ≠ name) →
      VersionedResources.Lookup vrs name = (vr, true, vrs) := by
    intro pre vr post hsplit hname hpre
    unfold VersionedResources.Lookup
    have h := lookupLoop_first vrs name pre post vr hname hpre
    rw [← hsplit] at h
    exact h
  have habsent : (∀ v ∈ vrs, v.Name ≠ name) →
      VersionedResources.Lookup vrs name = (VersionedResource.zero, false, vrs) :=
    fun habs => lookupLoop_absent vrs name vrs habs
  refine ⟨hfirst, ?_, habsent, ?_, ?_⟩
  · intro hex
    obtain ⟨pre, vr, post, hsplit, hname, hpre⟩ := first_named vrs name hex
    exact ⟨pre, vr, post, hsplit, hname, hpre, hfirst pre vr post hsplit hname hpre⟩
  · constructor
    · intro hfalse v hv hvn
      obtain ⟨pre, vr, post, hsplit, hname, hpre⟩ := first_named vrs name ⟨v, hv, hvn⟩
      rw [hfirst pre vr post hsplit hname hpre] at hfalse
      simp at hfalse
    · intro habs
      rw [habsent habs]
  · by_cases hex : ∃ v ∈ vrs, v.Name = name
    · obtain ⟨pre, vr, post, hsplit, hname, hpre⟩ := first_named vrs name hex
      rw [hfirst pre vr post hsplit hname hpre]
    · have habs : ∀ v ∈ vrs, v.Name ≠ name := fun v hv hvn => hex ⟨v, hv, hvn⟩
      rw [habsent habs]

/-- Witness of C21: of the two resources named `repo`, the lookup returns the first, at
    version `abc`; and no resource is named `cache`. -/
theorem VersionedResources_Lookup_first_witness :
    VersionedResources.Lookup exampleResources "repo"
        = ({ VersionedResource.zero with
              Name := "repo", Type_ := "git", Version := [("ref", "abc")] },
            true, exampleResources)
    ∧ VersionedResources.Lookup exampleResources "cache"
        = (VersionedResource.zero, false, exampleResources) :=
  ⟨(VersionedResources_Lookup_first exampleResources "repo").1
      [{ VersionedResource.zero with Name := "image", Type_ := "docker" }]
      { VersionedResource.zero with Name := "repo", Type_ := "git", Version := [("ref", "abc")] }
      [{ VersionedResource.zero with
          Name := "repo", Type_ := "git", Version := [("ref", "def")] }]
      rfl rfl (by decide),
    (VersionedResources_Lookup_first exampleResources "cache").2.2.1 (by decide)⟩

end db

end Atc
